import Mathlib

/-!
Shallow embedding of the fastimage Go package (header sniffer and HTTP
probing engine) and proofs about it.

Conventions of the embedding:
* a Go byte slice is a `List Byte` with `Byte := Fin 256`; slice capacity is
  taken to equal its length, so any indexing or re-slicing past the length is
  a runtime panic;
* Go functions that can panic (index out of range / slice bounds out of
  range) are modelled as `Option`-valued, `none` meaning the panic;
* `uint32` arithmetic is `Nat` arithmetic with an explicit `% 2 ^ 32`
  wherever the Go computation can exceed 32 bits; byte-combining
  expressions such as `uint32(hi)<<8 | uint32(lo)` are rendered as
  `hi * 256 + lo`, which is exactly equal because the operands occupy
  disjoint bit ranges (`lo < 256`);
* concurrency (goroutines, channels, `select`, `context`) is modelled with
  explicit state passing plus outcome oracles for the nondeterministic
  choices (which `select` branch fires, what each HTTP round trip returns).
-/

namespace Fastimage

/-- A Go `byte`. -/
abbrev Byte := Fin 256

/-- Embedding of `uint32(b[i])` for a byte slice: value of the byte at index `i`
(callers are in-bounds; used only where the Go code cannot panic). -/
def bt (b : List Byte) (i : Nat) : Nat := (b.getD i 0).val

/-- Go re-slicing `b[i:j]` (in-bounds at all uses we model totally). -/
def goSlice (b : List Byte) (i j : Nat) : List Byte := (b.take j).drop i

/-- Embedding of `Type` from fastimage.go (renamed: `Type` is a Lean keyword), the type
of the image detected, or `unknown`. -/
inductive ImageType where
  | unknown
  | bmp
  | bpm
  | gif
  | jpeg
  | mng
  | pbm
  | pcx
  | pgm
  | png
  | ppm
  | psd
  | ras
  | rgb
  | tiff
  | webp
  | xbm
  | xpm
  | xv
  | avif
deriving DecidableEq, Repr

/-- Embedding of `Info` from fastimage.go: the type and dimensions of an image. -/
structure Info where
  type : ImageType
  width : Nat
  height : Nat
deriving DecidableEq, Repr

/-- The zero `Info` value. -/
def zeroInfo : Info := ⟨.unknown, 0, 0⟩

/-- Embedding of `uint32(b[i])<<24 | uint32(b[i+1])<<16 | uint32(b[i+2])<<8 | uint32(b[i+3])`. -/
def u32be (b : List Byte) (i : Nat) : Nat :=
  bt b i * 16777216 + bt b (i + 1) * 65536 + bt b (i + 2) * 256 + bt b (i + 3)

/-- Embedding of `uint32(b[i+3])<<24 | uint32(b[i+2])<<16 | uint32(b[i+1])<<8 | uint32(b[i])`. -/
def u32le (b : List Byte) (i : Nat) : Nat :=
  bt b (i + 3) * 16777216 + bt b (i + 2) * 65536 + bt b (i + 1) * 256 + bt b i

/-- Embedding of `readUint64(b[i:i+8])`: big-endian 64-bit read. -/
def readUint64 (b : List Byte) (i : Nat) : Nat :=
  bt b i * 72057594037927936 + bt b (i + 1) * 281474976710656 +
    bt b (i + 2) * 1099511627776 + bt b (i + 3) * 4294967296 +
    bt b (i + 4) * 16777216 + bt b (i + 5) * 65536 + bt b (i + 6) * 256 + bt b (i + 7)

/-- The `byteOrder` interface (`littleEndian` / `bigEndian`). -/
inductive ByteOrder where
  | little
  | big
deriving DecidableEq, Repr

/-- Embedding of `order.Uint16(b[i:i+2])`. -/
def ByteOrder.u16 (o : ByteOrder) (b : List Byte) (i : Nat) : Nat :=
  match o with
  | .little => bt b i + bt b (i + 1) * 256
  | .big => bt b (i + 1) + bt b i * 256

/-- Embedding of `order.Uint32(b[i:i+4])`. -/
def ByteOrder.u32 (o : ByteOrder) (b : List Byte) (i : Nat) : Nat :=
  match o with
  | .little => u32le b i
  | .big => u32be b i

/-- Embedding of `hasJPEG`. -/
def hasJPEG (b : List Byte) : Bool :=
  decide (2 ≤ b.length ∧ bt b 0 = 0xff ∧ bt b 1 = 0xd8)

/-- Embedding of `hasPNG`. -/
def hasPNG (b : List Byte) : Bool :=
  decide (8 ≤ b.length ∧ bt b 0 = 0x89 ∧ bt b 1 = 80 ∧ bt b 2 = 78 ∧ bt b 3 = 71 ∧
    bt b 4 = 0x0d ∧ bt b 5 = 0x0a ∧ bt b 6 = 0x1a ∧ bt b 7 = 0x0a)

/-- Embedding of `hasWEBP`. -/
def hasWEBP (b : List Byte) : Bool :=
  decide (12 ≤ b.length ∧ bt b 0 = 82 ∧ bt b 1 = 73 ∧ bt b 2 = 70 ∧ bt b 3 = 70 ∧
    bt b 8 = 87 ∧ bt b 9 = 69 ∧ bt b 10 = 66 ∧ bt b 11 = 80)

/-- Embedding of `hasGIF`: "GIF8" then one of `7`/`,`/`9` then `a`. -/
def hasGIF (b : List Byte) : Bool :=
  decide (6 ≤ b.length ∧ bt b 0 = 71 ∧ bt b 1 = 73 ∧ bt b 2 = 70 ∧ bt b 3 = 56 ∧
    (bt b 4 = 55 ∨ bt b 4 = 44 ∨ bt b 4 = 57) ∧ bt b 5 = 97)

/-- Embedding of `hasBMP`. -/
def hasBMP (b : List Byte) : Bool :=
  decide (2 ≤ b.length ∧ bt b 0 = 66 ∧ bt b 1 = 77)

/-- Embedding of `hasPPM`: `P` then a digit `1`-`7`. -/
def hasPPM (b : List Byte) : Bool :=
  decide (2 ≤ b.length ∧ bt b 0 = 80 ∧ 49 ≤ bt b 1 ∧ bt b 1 ≤ 55)

/-- Embedding of `hasXBM`: `#define` then space or tab. -/
def hasXBM (b : List Byte) : Bool :=
  decide (8 ≤ b.length ∧ bt b 0 = 35 ∧ bt b 1 = 100 ∧ bt b 2 = 101 ∧ bt b 3 = 102 ∧
    bt b 4 = 105 ∧ bt b 5 = 110 ∧ bt b 6 = 101 ∧ (bt b 7 = 32 ∨ bt b 7 = 9))

/-- Embedding of `hasXPM`: the literal `/* XPM */`. -/
def hasXPM (b : List Byte) : Bool :=
  decide (9 ≤ b.length ∧ bt b 0 = 47 ∧ bt b 1 = 42 ∧ bt b 2 = 32 ∧ bt b 3 = 88 ∧
    bt b 4 = 80 ∧ bt b 5 = 77 ∧ bt b 6 = 32 ∧ bt b 7 = 42 ∧ bt b 8 = 47)

/-- Embedding of `hasTIFFBig`. -/
def hasTIFFBig (b : List Byte) : Bool :=
  decide (4 ≤ b.length ∧ bt b 0 = 77 ∧ bt b 1 = 77 ∧ bt b 2 = 0 ∧ bt b 3 = 0x2a)

/-- Embedding of `hasTIFFLittle`. -/
def hasTIFFLittle (b : List Byte) : Bool :=
  decide (4 ≤ b.length ∧ bt b 0 = 73 ∧ bt b 1 = 73 ∧ bt b 2 = 0x2a ∧ bt b 3 = 0)

/-- Embedding of `hasPSD`: `8BPS`. -/
def hasPSD (b : List Byte) : Bool :=
  decide (4 ≤ b.length ∧ bt b 0 = 56 ∧ bt b 1 = 66 ∧ bt b 2 = 80 ∧ bt b 3 = 83)

/-- Embedding of `hasMNG`. -/
def hasMNG (b : List Byte) : Bool :=
  decide (8 ≤ b.length ∧ bt b 0 = 0x8a ∧ bt b 1 = 77 ∧ bt b 2 = 78 ∧ bt b 3 = 71 ∧
    bt b 4 = 0x0d ∧ bt b 5 = 0x0a ∧ bt b 6 = 0x1a ∧ bt b 7 = 0x0a)

/-- Embedding of `hasRGB`. -/
def hasRGB (b : List Byte) : Bool :=
  decide (6 ≤ b.length ∧ bt b 0 = 0x01 ∧ bt b 1 = 0xda ∧ bt b 2 = 91 ∧ bt b 3 = 0x01 ∧
    bt b 4 = 0 ∧ bt b 5 = 93)

/-- Embedding of `hasRAS`. -/
def hasRAS (b : List Byte) : Bool :=
  decide (4 ≤ b.length ∧ bt b 0 = 0x59 ∧ bt b 1 = 0xa6 ∧ bt b 2 = 0x6a ∧ bt b 3 = 0x95)

/-- Embedding of `hasPCX`. -/
def hasPCX (b : List Byte) : Bool :=
  decide (3 ≤ b.length ∧ bt b 0 = 0x0a ∧ bt b 2 = 0x01)

/-- Embedding of `isAVIFBrand`: `avi` then `f` or `s`. -/
def isAVIFBrand (b : List Byte) : Bool :=
  decide (4 ≤ b.length ∧ bt b 0 = 97 ∧ bt b 1 = 118 ∧ bt b 2 = 105 ∧
    (bt b 3 = 102 ∨ bt b 3 = 115))

/-- The brand-scanning loop of `ftypHasAVIF` (`for i := header + 8; i+4 <= len(b); i += 4`). -/
def ftypBrandLoop (b : List Byte) (i : Nat) : Bool :=
  if _h : i + 4 ≤ b.length then
    if isAVIFBrand (goSlice b i (i + 4)) then true else ftypBrandLoop b (i + 4)
  else false
termination_by b.length - i
decreasing_by omega

/-- Embedding of `ftypHasAVIF`. -/
def ftypHasAVIF (b : List Byte) (header : Nat) : Bool :=
  if b.length < header + 8 then false
  else if isAVIFBrand (goSlice b header (header + 4)) then true
  else ftypBrandLoop b (header + 8)

/-- The box-scanning loop of `hasAVIFFtyp` (`for i := 0; i+8 <= len(b);`).
The `switch size32` block is rendered as an `Option (Nat × Nat)` holding
`(size, header)`, `none` meaning `return false`. -/
def hasAVIFFtypLoop (b : List Byte) (i : Nat) : Bool :=
  if h : i + 8 ≤ b.length then
    match hsh : (if u32be b i = 1 then
        (if i + 16 > b.length then none
         else if readUint64 b (i + 8) < 16 ∨ readUint64 b (i + 8) > b.length - i then none
         else some (readUint64 b (i + 8), 16))
      else if u32be b i = 0 then some (b.length - i, 8)
      else some (u32be b i, 8) : Option (Nat × Nat)) with
    | none => false
    | some (size, header) =>
      if size < header then false
      else if i + size > b.length then false
      else if bt b (i + 4) = 102 ∧ bt b (i + 5) = 116 ∧ bt b (i + 6) = 121 ∧
          bt b (i + 7) = 112 then
        ftypHasAVIF (goSlice b i (i + size)) header
      else hasAVIFFtypLoop b (i + size)
  else false
termination_by b.length - i
decreasing_by
  repeat' split at hsh
  all_goals try cases hsh
  all_goals try simp only [Option.some.injEq, Prod.mk.injEq] at hsh
  all_goals omega

/-- Embedding of `hasAVIFFtyp`. -/
def hasAVIFFtyp (b : List Byte) : Bool := hasAVIFFtypLoop b 0

/-- True when the byte is one of space, tab, CR, LF. -/
def isSpaceByte (c : Nat) : Bool := decide (c = 32 ∨ c = 9 ∨ c = 13 ∨ c = 10)

/-- Embedding of `skipSpace(b, i)`: first index `j ≥ i` holding a non-space byte, else
`len(b)`.  (The `_ = b[len(b)-1]` bounds hint panics only for empty `b`;
every call site passes a non-empty slice.) -/
def skipSpace (b : List Byte) (i : Nat) : Nat :=
  if _h : i < b.length then
    if isSpaceByte (bt b i) then skipSpace b (i + 1) else i
  else i
termination_by b.length - i
decreasing_by omega

/-- End index of the non-space run for `readNonSpace`. -/
def readNonSpaceEnd (b : List Byte) (i : Nat) : Nat :=
  if _h : i < b.length then
    if isSpaceByte (bt b i) then i else readNonSpaceEnd b (i + 1)
  else i
termination_by b.length - i
decreasing_by omega

/-- Embedding of `readNonSpace(b, i)`: the token `b[i:j]` up to the next space, and `j`. -/
def readNonSpace (b : List Byte) (i : Nat) : List Byte × Nat :=
  (goSlice b i (readNonSpaceEnd b i), readNonSpaceEnd b i)

/-- The digit-accumulating loop of `parseUint32`; `n` wraps as `uint32`
(Go `n = n*10 + x`), `x` is `uint32(b[j] - '0')` with wrapping byte
subtraction. -/
def parseUint32Go (b : List Byte) (i : Nat) (n : Nat) : Nat × Nat :=
  if _h : i < b.length then
    let x := ((b.getD i 0) - 48 : Byte).val
    if x > 9 then (n, i) else parseUint32Go b (i + 1) ((n * 10 + x) % 4294967296)
  else (n, i)
termination_by b.length - i
decreasing_by omega

/-- Embedding of `parseUint32(b, i)`. -/
def parseUint32 (b : List Byte) (i : Nat) : Nat × Nat := parseUint32Go b i 0

/-- First index `j ≥ i` with `b[j] == '\n'`, else `len(b)` (the search loop
of `readLine`). -/
def findNewline (b : List Byte) (i : Nat) : Nat :=
  if _h : i < b.length then
    if bt b i = 10 then i else findNewline b (i + 1)
  else i
termination_by b.length - i
decreasing_by omega

/-- Embedding of `readLine(b, i)`: the line `b[i:j+1]` including its newline, and `j+1`.
When no newline remains, the Go code computes `j = len(b)+1` and slices
`b[i : len(b)+1]`, a slice-bounds panic (capacity = length): `none`.
The initial `_ = b[len(b)-1]` hint also panics for empty `b`. -/
def readLine (b : List Byte) (i : Nat) : Option (List Byte × Nat) :=
  if b.length = 0 then none
  else
    let j := findNewline b i
    if j < b.length then some (goSlice b i (j + 1), j + 1)
    else none

/-- Fact that `i ≤ findNewline b i`, used for termination of the `xpm` line loop. -/
def le_findNewline (b : List Byte) (i : Nat) : i ≤ findNewline b i := by
  unfold findNewline
  split
  · split
    · omega
    · have := le_findNewline b (i + 1)
      omega
  · omega
termination_by b.length - i
decreasing_by omega

/-- The marker-scanning loop of `jpeg`.  The Go loop does all reads with no
bounds checks, so any access past the end is a panic (`none`).  Per
iteration it reads `b[i..i+3]`, and in the SOF branch (after `i += 4`)
`b[i+1..i+4]`; otherwise it advances by `int(length) - 2` (net `length + 2`
from the original `i`). -/
def jpegLoop (b : List Byte) (i : Nat) : Option Info :=
  if h : i + 3 < b.length then
    -- length := int(b[i+3]) | int(b[i+2])<<8 ; code := b[i+1] ; marker := b[i]
    if bt b i ≠ 0xff then some zeroInfo
    else if 0xc0 ≤ bt b (i + 1) ∧ bt b (i + 1) ≤ 0xc3 then
      if i + 8 < b.length then
        some ⟨.jpeg, bt b (i + 8) + bt b (i + 7) * 256, bt b (i + 6) + bt b (i + 5) * 256⟩
      else none
    else jpegLoop b (i + 2 + (bt b (i + 3) + bt b (i + 2) * 256))
  else none
termination_by b.length - i
decreasing_by omega

/-- Embedding of `jpeg(b, &info)` with `info` initially zero. -/
def jpeg (b : List Byte) : Option Info := jpegLoop b 2

/-- Embedding of `webp(b, &info)`. -/
def webp (b : List Byte) : Info :=
  if b.length < 30 then zeroInfo
  else if ¬(bt b 12 = 86 ∧ bt b 13 = 80 ∧ bt b 14 = 56) then zeroInfo
  else
    let wh : Nat × Nat :=
      if bt b 15 = 32 then      -- ' ' VP8: (uint32(b[27])&0x3f)<<8 | uint32(b[26])
        ((bt b 27 % 64) * 256 + bt b 26, (bt b 29 % 64) * 256 + bt b 28)
      else if bt b 15 = 76 then -- 'L' VP8L: (b[22]<<8|b[21])&16383 + 1, (b[23]<<2|b[22]>>6)&16383 + 1
        ((bt b 22 * 256 + bt b 21) % 16384 + 1,
         (bt b 23 * 4 + bt b 22 / 64) % 16384 + 1)
      else if bt b 15 = 88 then -- 'X' VP8X: 24-bit little-endian + 1
        (bt b 24 + bt b 25 * 256 + bt b 26 * 65536 + 1,
         bt b 27 + bt b 28 * 256 + bt b 29 * 65536 + 1)
      else (0, 0)
    if wh.1 ≠ 0 ∧ wh.2 ≠ 0 then ⟨.webp, wh.1, wh.2⟩ else ⟨.unknown, wh.1, wh.2⟩

/-- Embedding of `png(b, &info)`. -/
def png (b : List Byte) : Info :=
  if b.length < 24 then zeroInfo
  else
    let wh : Nat × Nat :=
      if bt b 12 = 73 ∧ bt b 13 = 72 ∧ bt b 14 = 68 ∧ bt b 15 = 82 then -- IHDR
        (u32be b 16, u32be b 20)
      else (0, 0)
    if wh.1 ≠ 0 ∧ wh.2 ≠ 0 then ⟨.png, wh.1, wh.2⟩ else ⟨.unknown, wh.1, wh.2⟩

/-- Embedding of `gif(b, &info)`. -/
def gif (b : List Byte) : Info :=
  if b.length < 12 then zeroInfo
  else
    let width := bt b 7 * 256 + bt b 6
    let height := bt b 9 * 256 + bt b 8
    if width ≠ 0 ∧ height ≠ 0 then ⟨.gif, width, height⟩ else ⟨.unknown, width, height⟩

/-- Embedding of `bmp(b, &info)`. -/
def bmp (b : List Byte) : Info :=
  if b.length < 26 then zeroInfo
  else
    let width := u32le b 18
    let height := u32le b 22
    if width ≠ 0 ∧ height ≠ 0 then ⟨.bmp, width, height⟩ else ⟨.unknown, width, height⟩

/-- Embedding of `ppm(b, &info)` (`GetInfo` only calls it under `hasPPM`, so `b[1]`
exists and is a digit `1`-`7`). -/
def ppm (b : List Byte) : Info :=
  let t : ImageType :=
    if bt b 1 = 49 then .pbm
    else if bt b 1 = 50 ∨ bt b 1 = 53 then .pgm
    else if bt b 1 = 51 ∨ bt b 1 = 54 then .ppm
    else if bt b 1 = 52 then .bpm
    else if bt b 1 = 55 then .xv
    else .unknown
  let i1 := skipSpace b 2
  let wp := parseUint32 b i1
  let i3 := skipSpace b wp.2
  let hp := parseUint32 b i3
  if wp.1 = 0 ∨ hp.1 = 0 then ⟨.unknown, wp.1, hp.1⟩ else ⟨t, wp.1, hp.1⟩

/-- Embedding of `xbm(b, &info)`. -/
def xbm (b : List Byte) : Info :=
  let i1 := (readNonSpace b 0).2
  let i2 := skipSpace b i1
  let i3 := (readNonSpace b i2).2
  let i4 := skipSpace b i3
  let wp := parseUint32 b i4
  let i6 := skipSpace b wp.2
  let pr := readNonSpace b i6
  if ¬((pr.1).length = 7 ∧ bt pr.1 6 = 101 ∧ bt pr.1 0 = 35 ∧ bt pr.1 1 = 100 ∧
      bt pr.1 2 = 101 ∧ bt pr.1 3 = 102 ∧ bt pr.1 4 = 105 ∧ bt pr.1 5 = 110) then
    ⟨.unknown, wp.1, 0⟩
  else
    let i8 := skipSpace b pr.2
    let i9 := (readNonSpace b i8).2
    let i10 := skipSpace b i9
    let hp := parseUint32 b i10
    if wp.1 ≠ 0 ∧ hp.1 ≠ 0 then ⟨.xbm, wp.1, hp.1⟩ else ⟨.unknown, wp.1, hp.1⟩

/-- The line loop of `xpm`, returning the parsed `(width, height)` at the
`break`.  `line[j]` with `j = len(line)` (an all-space line) is an
index-out-of-range panic, and running past the last line panics inside
`readLine`; both are `none`.  The `len(line) == 0` break cannot fire (every
returned line is non-empty) but is kept for fidelity. -/
def xpmLoop (b : List Byte) (i : Nat) : Option (Nat × Nat) :=
  match hr : readLine b i with
  | none => none
  | some li =>
    if li.1.length = 0 then some (0, 0)
    else
      let j := skipSpace li.1 0
      if j < li.1.length then
        if bt li.1 j ≠ 34 then xpmLoop b li.2
        else
          let wp := parseUint32 li.1 (j + 1)
          let j3 := skipSpace li.1 wp.2
          let hp := parseUint32 li.1 j3
          some (wp.1, hp.1)
      else none
termination_by b.length - i
decreasing_by
  simp only [readLine] at hr
  split at hr
  · cases hr
  · split at hr
    · simp only [Option.some.injEq] at hr
      have := le_findNewline b i
      subst hr
      simp only []
      omega
    · cases hr

/-- Embedding of `xpm(b, &info)`. -/
def xpm (b : List Byte) : Option Info :=
  match xpmLoop b 0 with
  | none => none
  | some wh =>
    some (if wh.1 ≠ 0 ∧ wh.2 ≠ 0 then ⟨.xpm, wh.1, wh.2⟩ else ⟨.unknown, wh.1, wh.2⟩)

/-- The `switch datatype` of one IFD entry, rendered as
`Option (Option Nat)`: outer `none` is an out-of-range panic, `some none`
is the `default: return` branch, `some (some v)` a parsed value. -/
def tiffValue (b : List Byte) (order : ByteOrder) (i : Nat) : Option (Option Nat) :=
  let datatype := order.u16 b (i + 2)
  if datatype = 1 ∨ datatype = 6 then
    (if i + 9 < b.length then some (some (bt b (i + 9))) else none)
  else if datatype = 3 ∨ datatype = 8 then
    (if i + 10 ≤ b.length then some (some (order.u16 b (i + 8))) else none)
  else if datatype = 4 ∨ datatype = 9 then
    (if i + 12 ≤ b.length then some (some (order.u32 b (i + 8))) else none)
  else some none

/-- The IFD entry loop of `tiff`. -/
def tiffLoop (b : List Byte) (order : ByteOrder) (n : Nat) (i : Nat) (info : Info) :
    Option Info :=
  if i < n * 12 then
    if i + 4 ≤ b.length then
      match tiffValue b order i with
      | none => none
      | some none => some info
      | some (some value) =>
        let tag := order.u16 b i
        let info' := if tag = 256 then { info with width := value }
                     else if tag = 257 then { info with height := value } else info
        if 0 < info'.width ∧ 0 < info'.height then some { info' with type := .tiff }
        else tiffLoop b order n (i + 12) info'
    else none
  else some info
termination_by n * 12 - i
decreasing_by omega

/-- Embedding of `tiff(b, &info, order)`: reads the IFD offset from `b[4:8]` and the
entry count, then runs the entry loop from `i+2`. -/
def tiff (b : List Byte) (order : ByteOrder) : Option Info :=
  if 8 ≤ b.length then
    let i0 := order.u32 b 4
    if i0 + 4 ≤ b.length then
      tiffLoop b order (order.u16 b (i0 + 2)) (i0 + 2) zeroInfo
    else none
  else none

/-- Embedding of `psd(b, &info)`. -/
def psd (b : List Byte) : Info :=
  if b.length < 22 then zeroInfo
  else
    let width := u32be b 18
    let height := u32be b 14
    if width ≠ 0 ∧ height ≠ 0 then ⟨.psd, width, height⟩ else ⟨.unknown, width, height⟩

/-- Embedding of `mng(b, &info)`. -/
def mng (b : List Byte) : Info :=
  if b.length < 24 then zeroInfo
  else if ¬(bt b 12 = 77 ∧ bt b 13 = 72 ∧ bt b 14 = 68 ∧ bt b 15 = 82) then zeroInfo
  else
    let width := u32be b 16
    let height := u32be b 20
    if width ≠ 0 ∧ height ≠ 0 then ⟨.mng, width, height⟩ else ⟨.unknown, width, height⟩

/-- Embedding of `rgb(b, &info)`. -/
def rgb (b : List Byte) : Info :=
  if b.length < 10 then zeroInfo
  else
    let width := bt b 6 * 256 + bt b 7
    let height := bt b 8 * 256 + bt b 9
    if width ≠ 0 ∧ height ≠ 0 then ⟨.rgb, width, height⟩ else ⟨.unknown, width, height⟩

/-- Embedding of `ras(b, &info)`. -/
def ras (b : List Byte) : Info :=
  if b.length < 12 then zeroInfo
  else
    let width := u32be b 4
    let height := u32be b 8
    if width ≠ 0 ∧ height ≠ 0 then ⟨.ras, width, height⟩ else ⟨.unknown, width, height⟩

/-- Embedding of `pcx(b, &info)`: `1 + xmax - xmin` (and likewise for y) in wrapping
`uint32` arithmetic. -/
def pcx (b : List Byte) : Info :=
  if b.length < 12 then zeroInfo
  else
    let width := (1 + (bt b 9 * 256 + bt b 8) + 4294967296 - (bt b 5 * 256 + bt b 4)) % 4294967296
    let height := (1 + (bt b 11 * 256 + bt b 10) + 4294967296 - (bt b 7 * 256 + bt b 6)) % 4294967296
    if width ≠ 0 ∧ height ≠ 0 then ⟨.pcx, width, height⟩ else ⟨.unknown, width, height⟩

/-- The search loop of `avifDimensions` over `ispe` boxes. -/
def avifDimensionsLoop (b : List Byte) (i : Nat) : Nat × Nat :=
  if _h : i + 16 ≤ b.length then
    if ¬(bt b i = 105 ∧ bt b (i + 1) = 115 ∧ bt b (i + 2) = 112 ∧ bt b (i + 3) = 101) then
      avifDimensionsLoop b (i + 1)
    else
      let size := u32be b (i - 4)
      if size < 20 then avifDimensionsLoop b (i + 1)
      else if i - 4 + size > b.length then avifDimensionsLoop b (i + 1)
      else
        let width := u32be b (i + 8)
        let height := u32be b (i + 12)
        if width ≠ 0 ∧ height ≠ 0 then (width, height) else avifDimensionsLoop b (i + 1)
  else (0, 0)
termination_by b.length - i
decreasing_by all_goals omega

/-- Embedding of `avifDimensions(b)`. -/
def avifDimensions (b : List Byte) : Nat × Nat := avifDimensionsLoop b 4

/-- Embedding of `avif(b, &info)`. -/
def avif (b : List Byte) : Info :=
  let wh := avifDimensions b
  if wh.1 ≠ 0 ∧ wh.2 ≠ 0 then ⟨.avif, wh.1, wh.2⟩ else ⟨.unknown, wh.1, wh.2⟩

/-- Embedding of `GetType(p)`: detects the image type of `p` (minimum 80 bytes required). -/
def GetType (p : List Byte) : ImageType :=
  if p.length < 80 then .unknown
  else if hasJPEG p then .jpeg
  else if hasPNG p then .png
  else if hasWEBP p then .webp
  else if hasGIF p then .gif
  else if hasBMP p then .bmp
  else if hasPPM p then .ppm
  else if hasXBM p then .xbm
  else if hasXPM p then .xpm
  else if hasTIFFBig p then .tiff
  else if hasTIFFLittle p then .tiff
  else if hasPSD p then .psd
  else if hasMNG p then .mng
  else if hasRGB p then .rgb
  else if hasRAS p then .ras
  else if hasPCX p then .pcx
  else if hasAVIFFtyp p then .avif
  else .unknown

/-- Embedding of `GetInfo(p)`: detects image type and dimensions (minimum 80 bytes
required).  `none` models a runtime panic inside a format parser. -/
def GetInfo (p : List Byte) : Option Info :=
  if p.length < 80 then some zeroInfo
  else if hasJPEG p then jpeg p
  else if hasPNG p then some (png p)
  else if hasWEBP p then some (webp p)
  else if hasGIF p then some (gif p)
  else if hasBMP p then some (bmp p)
  else if hasPPM p then some (ppm p)
  else if hasXBM p then some (xbm p)
  else if hasXPM p then xpm p
  else if hasTIFFBig p then tiff p .big
  else if hasTIFFLittle p then tiff p .little
  else if hasPSD p then some (psd p)
  else if hasMNG p then some (mng p)
  else if hasRGB p then some (rgb p)
  else if hasRAS p then some (ras p)
  else if hasPCX p then some (pcx p)
  else if hasAVIFFtyp p then some (avif p)
  else some zeroInfo

/-!  ## The HTTP probing engine

The HTTP subsystem is modelled with explicit state passing.  External
collaborators are oracles:

* `doReq : Nat → Except GoError HTTPResponse` stands for one
  `client.Do` round trip for a given byte budget (the `Range` header);
  a transport failure is `Except.error`;
* the response carries `retryAfter`, the value `parseRetryAfter` extracts
  from its `Retry-After` header — `0` encodes "absent or unparseable"
  (`parseRetryAfter` returns `ok = false` exactly when its duration
  result is not positive, so a single `Nat` is faithful);
* `sniff : List Byte → Info` stands for the header sniffer at its
  interface boundary (`GetInfo`), which the spec treats as an external
  collaborator of the engine;
* `sleepOutcome : Nat → Option GoError` is `sleepWithContext`: `none`
  when the full sleep elapses, `some cancelErr` when the context wins;
* which branch of a blocking `select` fires is an explicit outcome
  parameter (`Bool` / `OriginAcqOutcome`).
-/

/-- The error values the package can attach to a result (errors.go plus
`url.Error`, `ctx.Err()`, transport and body-read errors). -/
inductive GoError where
  | parse (url : String)
  | cancelled
  | transport (msg : String)
  | readBody (msg : String)
  | httpStatus (url : String) (statusCode : Nat) (status : String)
  | retryAfter (url : String) (statusCode : Nat) (status : String) (seconds : Nat)
  | insufficientBytes (got : Nat) (min : Nat)
deriving DecidableEq, Repr

/-- Whether an error is an `*HTTPStatusError`. -/
def GoError.isHTTPStatusError : GoError → Bool
  | .httpStatus _ _ _ => true
  | _ => false

/-- One HTTP response as the engine observes it: status code and text, the
already-parsed `Retry-After` duration in seconds (`0` = none/unparseable),
the body bytes, and whether reading the body fails (`io.ReadAll`). -/
structure HTTPResponse where
  statusCode : Nat
  status : String
  retryAfter : Nat
  body : List Byte
  bodyReadError : Option String := none
deriving DecidableEq, Repr

/-- Embedding of `GetHTTPImageOptions` (Go `int` fields, so `Int`). -/
structure GetHTTPImageOptions where
  concurrentRequestsReusable : Int := 0
  concurrentRequestsNonReusable : Int := 0
  maxConcurrentConnections : Int := 0
deriving DecidableEq, Repr

/-- Embedding of `CONCURRENT_REQUESTS_FOR_REUSABLE_CONNECTIONS_DEFAULT`. -/
def REUSABLE_DEFAULT : Int := 20

/-- Embedding of `CONCURRENT_REQUESTS_FOR_NON_REUSABLE_CONNECTIONS_DEFAULT`. -/
def NON_REUSABLE_DEFAULT : Int := 5

/-- Embedding of `MAX_CONCURRENT_CONNECTIONS_GLOBAL_DEFAULT`. -/
def GLOBAL_DEFAULT : Int := 50

/-- Embedding of `normalizeHTTPImageOptions(options)`. -/
def normalizeHTTPImageOptions (options : GetHTTPImageOptions) : GetHTTPImageOptions :=
  let options :=
    if options.concurrentRequestsReusable < 1 then
      { options with concurrentRequestsReusable := REUSABLE_DEFAULT }
    else options
  let options :=
    if options.concurrentRequestsNonReusable < 1 then
      { options with concurrentRequestsNonReusable := NON_REUSABLE_DEFAULT }
    else options
  let options :=
    if options.maxConcurrentConnections < 1 then
      { options with maxConcurrentConnections := GLOBAL_DEFAULT }
    else options
  if options.concurrentRequestsReusable < options.concurrentRequestsNonReusable then
    { options with concurrentRequestsReusable := options.concurrentRequestsNonReusable }
  else options

/-- The `originLimiter` state: the two channel capacities, their current
occupancy, and the `rangeSupported` atomic flag.  A `nil` extra channel is
`extraCap = 0`. -/
structure OriginLimiterState where
  baseCap : Nat
  extraCap : Nat
  baseUsed : Nat := 0
  extraUsed : Nat := 0
  rangeSupported : Bool := false
deriving DecidableEq, Repr

/-- Embedding of `newOriginLimiter(nonReusableLimit, reusableLimit)`. -/
def newOriginLimiter (nonReusableLimit reusableLimit : Int) : OriginLimiterState :=
  let n := if nonReusableLimit < 1 then 1 else nonReusableLimit
  let r := if reusableLimit < n then n else reusableLimit
  { baseCap := n.toNat, extraCap := (r - n).toNat }

/-- Embedding of `(*originLimiter).enableReusable()`. -/
def OriginLimiterState.enableReusable (l : OriginLimiterState) : OriginLimiterState :=
  { l with rangeSupported := true }

/-- Which branch of the `select` in `(*originLimiter).acquire` fires. -/
inductive OriginAcqOutcome where
  | base
  | extra
  | ctxDone
deriving DecidableEq, Repr

/-- Which tier's slot an acquisition obtained (determines the release). -/
inductive OriginTag where
  | base
  | extra
deriving DecidableEq, Repr

/-- Embedding of `(*originLimiter).acquire(ctx)` given the `select` outcome.  `none` is a
failed acquisition (the caller receives `ctx.Err()` and holds nothing).
The wide `select` offering the extra tier only runs when
`rangeSupported && extra != nil`; choosing `extra` outside it cannot
happen, and is mapped to `none`.  Channel capacities bound blocking, a
purely temporal behaviour: a send that would block corresponds to the
oracle choosing a different winning branch. -/
def OriginLimiterState.acquire (l : OriginLimiterState) (out : OriginAcqOutcome) :
    Option (OriginLimiterState × OriginTag) :=
  if l.rangeSupported ∧ 0 < l.extraCap then
    match out with
    | .base => some ({ l with baseUsed := l.baseUsed + 1 }, .base)
    | .extra => some ({ l with extraUsed := l.extraUsed + 1 }, .extra)
    | .ctxDone => none
  else
    match out with
    | .base => some ({ l with baseUsed := l.baseUsed + 1 }, .base)
    | .extra => none
    | .ctxDone => none

/-- The release closure returned by `acquire`: receive from the channel the
slot was taken on. -/
def OriginLimiterState.releaseTag (l : OriginLimiterState) : OriginTag → OriginLimiterState
  | .base => { l with baseUsed := l.baseUsed - 1 }
  | .extra => { l with extraUsed := l.extraUsed - 1 }

/-- Embedding of `acquire(ctx, limiter)` for the global `chan struct{}` semaphore, given
which `select` branch fires (`ctxDoneFirst = true` means `ctx.Done()`
wins); occupancy is the number of buffered items. -/
def acquire (ctxDoneFirst : Bool) (used : Nat) : Nat × Option GoError :=
  if ctxDoneFirst then (used, some .cancelled) else (used + 1, none)

/-- Embedding of `release(limiter)`. -/
def release (used : Nat) : Nat := used - 1

/-- The result of one `fetchImageInfoOnce` call:
`(info, retryAfter, err, needMore, readBytes)` plus the updated limiter. -/
structure OnceResult where
  info : Info
  retryAfter : Nat
  err : Option GoError
  needMore : Bool
  readBytes : Nat
  limiter : OriginLimiterState
deriving DecidableEq, Repr

/-- Embedding of `fetchImageInfoOnce(ctx, client, rawURL, minBytes, originLimiter)`. -/
def fetchImageInfoOnce (sniff : List Byte → Info)
    (doReq : Nat → Except GoError HTTPResponse) (rawURL : String) (minBytes : Nat)
    (l : OriginLimiterState) : OnceResult :=
  match doReq minBytes with
  | .error e => ⟨zeroInfo, 0, some e, false, 0, l⟩
  | .ok resp =>
    if (resp.statusCode = 429 ∨ resp.statusCode = 503) ∧ 0 < resp.retryAfter then
      ⟨zeroInfo, resp.retryAfter,
        some (.retryAfter rawURL resp.statusCode resp.status resp.retryAfter), false, 0, l⟩
    else
      let l := if resp.statusCode = 206 then l.enableReusable else l
      if resp.statusCode ≠ 200 ∧ resp.statusCode ≠ 206 then
        ⟨zeroInfo, 0, some (.httpStatus rawURL resp.statusCode resp.status), false, 0, l⟩
      else
        match resp.bodyReadError with
        | some m => ⟨zeroInfo, 0, some (.readBody m), false, 0, l⟩
        | none =>
          let data := resp.body.take minBytes
          let readBytes := data.length
          if readBytes < 80 then
            ⟨zeroInfo, 0, some (.insufficientBytes readBytes 80), false, readBytes, l⟩
          else
            let info := sniff data
            if info.type = .unknown ∨ info.width = 0 ∨ info.height = 0 then
              ⟨info, 0, none, true, readBytes, l⟩
            else ⟨info, 0, none, false, readBytes, l⟩

/-- The result of a progressive fetch: `(info, retryAfter, err)` plus the
updated limiter and the list of byte budgets actually requested. -/
structure ProgResult where
  info : Info
  retryAfter : Nat
  err : Option GoError
  limiter : OriginLimiterState
  attempted : List Nat
deriving DecidableEq, Repr

/-- The budget loop of `fetchImageInfoProgressive`.  `info` and `lastRead`
are the loop-carried variables; falling off the end of the loop can only
happen with `lastErr == nil`, producing the insufficient-bytes error. -/
def progLoop (sniff : List Byte → Info) (doReq : Nat → Except GoError HTTPResponse)
    (rawURL : String) : List Nat → Info → Nat → OriginLimiterState → ProgResult
  | [], info, lastRead, l => ⟨info, 0, some (.insufficientBytes lastRead 80), l, []⟩
  | size :: rest, info, lastRead, l =>
    if size < 80 then progLoop sniff doReq rawURL rest info lastRead l
    else
      let r := fetchImageInfoOnce sniff doReq rawURL size l
      let lastRead' := if 0 < r.readBytes then r.readBytes else lastRead
      if 0 < r.retryAfter then ⟨r.info, r.retryAfter, r.err, r.limiter, [size]⟩
      else match r.err with
        | some e => ⟨r.info, 0, some e, r.limiter, [size]⟩
        | none =>
          if r.needMore then
            let pr := progLoop sniff doReq rawURL rest r.info lastRead' r.limiter
            ⟨pr.info, pr.retryAfter, pr.err, pr.limiter, size :: pr.attempted⟩
          else ⟨r.info, 0, none, r.limiter, [size]⟩

/-- Embedding of `fetchImageInfoProgressive(ctx, client, rawURL, sizes, originLimiter)`. -/
def fetchImageInfoProgressive (sniff : List Byte → Info)
    (doReq : Nat → Except GoError HTTPResponse) (rawURL : String) (sizes : List Nat)
    (l : OriginLimiterState) : ProgResult :=
  progLoop sniff doReq rawURL sizes zeroInfo 0 l

/-- The result of the retry wrapper: final `(info, err)`, the limiter, the
budget trace of each progressive attempt, and the completed backoff sleeps. -/
structure RetryResult where
  info : Info
  err : Option GoError
  limiter : OriginLimiterState
  attempts : List (List Nat)
  sleeps : List Nat
deriving DecidableEq, Repr

/-- The `for attempt := 0; attempt < 2; attempt++` loop of
`fetchImageInfoWithRetry`, with `remaining = 2 - attempt` so the recursion
is structural.  `doReqA` gives attempt `k` its own transcript `doReqA k`. -/
def retryLoop (sniff : List Byte → Info)
    (doReqA : Nat → Nat → Except GoError HTTPResponse)
    (sleepOutcome : Nat → Option GoError) (rawURL : String) (sizes : List Nat) :
    Nat → Nat → OriginLimiterState → RetryResult
  | 0, _, l => ⟨zeroInfo, none, l, [], []⟩
  | remaining + 1, attempt, l =>
    let pr := fetchImageInfoProgressive sniff (doReqA attempt) rawURL sizes l
    match pr.err with
    | none => ⟨pr.info, none, pr.limiter, [pr.attempted], []⟩
    | some e =>
      if pr.retryAfter = 0 ∨ attempt = 1 then ⟨pr.info, some e, pr.limiter, [pr.attempted], []⟩
      else
        match sleepOutcome pr.retryAfter with
        | some cerr => ⟨pr.info, some cerr, pr.limiter, [pr.attempted], []⟩
        | none =>
          let rr := retryLoop sniff doReqA sleepOutcome rawURL sizes remaining (attempt + 1)
            pr.limiter
          ⟨rr.info, rr.err, rr.limiter, pr.attempted :: rr.attempts, pr.retryAfter :: rr.sleeps⟩

/-- Embedding of `fetchImageInfoWithRetry(ctx, client, rawURL, sizes, originLimiter)`. -/
def fetchImageInfoWithRetry (sniff : List Byte → Info)
    (doReqA : Nat → Nat → Except GoError HTTPResponse)
    (sleepOutcome : Nat → Option GoError) (rawURL : String) (sizes : List Nat)
    (l : OriginLimiterState) : RetryResult :=
  retryLoop sniff doReqA sleepOutcome rawURL sizes 2 0 l

/-- The admission state a task sees: global-semaphore occupancy plus its
origin's limiter. -/
structure GateState where
  globalUsed : Nat
  limiter : OriginLimiterState
deriving DecidableEq, Repr

/-- Embedding of `fetchImageInfo(ctx, client, rawURL, globalLimiter, originLimiter, sizes)`:
acquire the global gate, then the origin gate (releasing the global slot if
that fails), run the retry wrapper, then release origin and global slots
(the two `defer`s). -/
def fetchImageInfo (sniff : List Byte → Info)
    (doReqA : Nat → Nat → Except GoError HTTPResponse)
    (sleepOutcome : Nat → Option GoError) (ctxDoneAtGlobal : Bool)
    (oOut : OriginAcqOutcome) (rawURL : String) (sizes : List Nat) (st : GateState) :
    GateState × Info × Option GoError :=
  let g := acquire ctxDoneAtGlobal st.globalUsed
  match g.2 with
  | some e => ({ st with globalUsed := g.1 }, zeroInfo, some e)
  | none =>
    match st.limiter.acquire oOut with
    | none => (⟨release g.1, st.limiter⟩, zeroInfo, some .cancelled)
    | some (l1, tag) =>
      let rr := fetchImageInfoWithRetry sniff doReqA sleepOutcome rawURL sizes l1
      (⟨release g.1, rr.limiter.releaseTag tag⟩, rr.info, rr.err)

/-!  ## The batch orchestrator

`GetHTTPImageDataWithOptions` is modelled with two oracles:

* `parseOrigin : String → Option String` stands for `url.Parse` plus the
  scheme/host emptiness check and `normalizeOriginHost` (standard-library
  URL parsing is external): `none` when parsing fails or scheme/host is
  empty, otherwise the origin key `scheme + "://" + normalized host`;
* `fetch : Nat → String → Except GoError Info` stands for the complete
  `fetchImageInfo` run of the goroutine spawned for slot `index` (each
  goroutine writes only its own slot, so the concurrent execution is
  observationally this per-slot outcome function).

The model also returns the spawn trace: the `(index, rawURL)` pairs a
goroutine was started for, in spawn order. -/

/-- A queued URL: its input slot and raw string (the `item` struct). -/
structure Item where
  index : Nat
  rawURL : String
deriving DecidableEq, Repr

/-- The `originGroups` map as an association list in insertion order. -/
abbrev Groups := List (String × List Item)

/-- Embedding of `originGroups[origin]` lookup. -/
def groupsFind (gs : Groups) (origin : String) : Option (List Item) :=
  match gs with
  | [] => none
  | (k, its) :: rest => if k = origin then some its else groupsFind rest origin

/-- Embedding of `originGroups[origin] = append(originGroups[origin], it)`. -/
def groupsAdd (gs : Groups) (origin : String) (it : Item) : Groups :=
  match gs with
  | [] => [(origin, [it])]
  | (k, its) :: rest =>
    if k = origin then (k, its ++ [it]) :: rest else (k, its) :: groupsAdd rest origin it

/-- One result slot (`GetHTTPImageResult` flattened: URL, Info, Error). -/
structure GetHTTPImageResult where
  url : String
  info : Info
  error : Option GoError
deriving DecidableEq, Repr

/-- The first loop of `GetHTTPImageDataWithOptions` over `i, rawURL`:
populate `results[i].URL`, record a parse error or queue the URL under its
origin, also building the `origins` insertion-order list. -/
def phase1Go (parseOrigin : String → Option String) :
    List String → Nat → List String → Groups →
      List GetHTTPImageResult × List String × Groups
  | [], _, origins, gs => ([], origins, gs)
  | rawURL :: rest, i, origins, gs =>
    match parseOrigin rawURL with
    | none =>
      let r := phase1Go parseOrigin rest (i + 1) origins gs
      (⟨rawURL, zeroInfo, some (.parse rawURL)⟩ :: r.1, r.2)
    | some origin =>
      let origins' := if groupsFind gs origin = none then origins ++ [origin] else origins
      let gs' := groupsAdd gs origin ⟨i, rawURL⟩
      let r := phase1Go parseOrigin rest (i + 1) origins' gs'
      (⟨rawURL, zeroInfo, none⟩ :: r.1, r.2)

/-- Insert a string into a `≤`-sorted list (ascending, as `sort.Strings`). -/
def insertStr (s : String) : List String → List String
  | [] => [s]
  | t :: ts => if s < t then s :: t :: ts else t :: insertStr s ts

/-- Embedding of `sort.Strings(origins)`: ascending lexicographic sort. -/
def sortStrings : List String → List String
  | [] => []
  | s :: ss => insertStr s (sortStrings ss)

/-- The body of one spawned goroutine together with the spawn-time
`results[it.index].Error != nil` skip: read the slot, fetch, write the
slot.  The accumulator carries the results array and the spawn trace. -/
def runItem (fetch : Nat → String → Except GoError Info)
    (acc : List GetHTTPImageResult × List (Nat × String)) (it : Item) :
    List GetHTTPImageResult × List (Nat × String) :=
  match acc.1[it.index]? with
  | none => acc
  | some slot =>
    if slot.error ≠ none then acc
    else
      let trace := acc.2 ++ [(it.index, it.rawURL)]
      match fetch it.index it.rawURL with
      | .ok info => (acc.1.set it.index ⟨it.rawURL, info, slot.error⟩, trace)
      | .error e => (acc.1.set it.index { slot with error := some e }, trace)

/-- The task-spawning loops (`for origin ... for it := range originGroups[origin]`). -/
def runTasks (fetch : Nat → String → Except GoError Info)
    (results : List GetHTTPImageResult) (origins : List String) (gs : Groups) :
    List GetHTTPImageResult × List (Nat × String) :=
  origins.foldl (fun acc o => ((groupsFind gs o).getD []).foldl (runItem fetch) acc)
    (results, [])

/-- Embedding of `GetHTTPImageDataWithOptions(ctx, urls, options)`.  Returns the results
slice and the spawn trace. -/
def GetHTTPImageDataWithOptions (parseOrigin : String → Option String)
    (fetch : Nat → String → Except GoError Info) (urls : List String)
    (options : GetHTTPImageOptions) : List GetHTTPImageResult × List (Nat × String) :=
  let _options := normalizeHTTPImageOptions options
  match urls with
  | [] => ([], [])
  | _ =>
    let p := phase1Go parseOrigin urls 0 [] []
    runTasks fetch p.1 (sortStrings p.2.1) p.2.2

/-- The per-slot outcome `GetHTTPImageDataWithOptions` is proved to
compute: a parse error, or the goroutine's fetch outcome. -/
def expectedResult (parseOrigin : String → Option String)
    (fetch : Nat → String → Except GoError Info) (i : Nat) (u : String) :
    GetHTTPImageResult :=
  match parseOrigin u with
  | none => ⟨u, zeroInfo, some (.parse u)⟩
  | some _ =>
    match fetch i u with
    | .ok info => ⟨u, info, none⟩
    | .error e => ⟨u, zeroInfo, some e⟩

/-- Spec-side list: `expectedResult` applied slotwise from start index `i`. -/
def expectedList (parseOrigin : String → Option String)
    (fetch : Nat → String → Except GoError Info) (i : Nat) :
    List String → List GetHTTPImageResult
  | [] => []
  | u :: rest =>
    expectedResult parseOrigin fetch i u :: expectedList parseOrigin fetch (i + 1) rest

/-- The slot contents right after the grouping loop: URL recorded, a parse
error when the URL does not parse. -/
def initSlot (parseOrigin : String → Option String) (u : String) : GetHTTPImageResult :=
  match parseOrigin u with
  | none => ⟨u, zeroInfo, some (.parse u)⟩
  | some _ => ⟨u, zeroInfo, none⟩

/-- The items the grouping loop queues, in input order, starting at slot
index `i`: one per URL that parses. -/
def okItems (parseOrigin : String → Option String) : Nat → List String → List Item
  | _, [] => []
  | i, u :: rest =>
    match parseOrigin u with
    | none => okItems parseOrigin (i + 1) rest
    | some _ => ⟨i, u⟩ :: okItems parseOrigin (i + 1) rest

/-- All queued items of all origin groups. -/
def itemsBag (gs : Groups) : List Item := (gs.map Prod.snd).flatten

/-- What one task does to its own slot: skip if an error is already
recorded, otherwise write the fetch outcome. -/
def applyTask (fetch : Nat → String → Except GoError Info) (it : Item)
    (slot : GetHTTPImageResult) : GetHTTPImageResult :=
  if slot.error ≠ none then slot
  else
    match fetch it.index it.rawURL with
    | .ok info => ⟨it.rawURL, info, slot.error⟩
    | .error e => { slot with error := some e }


/-- An 80-byte buffer whose JPEG SOF0 marker carries width 0 and height 0:
`FF D8 FF C0` followed by zeros. -/
def jpegZeroDimsInput : List Byte := [0xff, 0xd8, 0xff, 0xc0] ++ List.replicate 76 0

/-- An 80-byte buffer that crashes the jpeg marker scan: `FF D8 FF E0`
with segment length `0xFFFF`, which jumps the scan index to 65539 and
reads `b[65542]` out of range. -/
def jpegPanicInput : List Byte := [0xff, 0xd8, 0xff, 0xe0, 0xff, 0xff] ++ List.replicate 74 0



/-!  ## C8: option normalization -/

/-- C8: `normalizeHTTPImageOptions` defaults every non-positive field to
20 / 5 / 50 respectively, then raises reusable to non-reusable when it is
smaller; afterwards all three values are ≥ 1 and reusable ≥ non-reusable. -/
theorem C8_options_normalization (o : GetHTTPImageOptions) :
    normalizeHTTPImageOptions o =
      { concurrentRequestsReusable :=
          max (if o.concurrentRequestsReusable < 1 then 20 else o.concurrentRequestsReusable)
            (if o.concurrentRequestsNonReusable < 1 then 5 else o.concurrentRequestsNonReusable),
        concurrentRequestsNonReusable :=
          (if o.concurrentRequestsNonReusable < 1 then 5 else o.concurrentRequestsNonReusable),
        maxConcurrentConnections :=
          (if o.maxConcurrentConnections < 1 then 50 else o.maxConcurrentConnections) } ∧
    1 ≤ (normalizeHTTPImageOptions o).concurrentRequestsReusable ∧
    1 ≤ (normalizeHTTPImageOptions o).concurrentRequestsNonReusable ∧
    1 ≤ (normalizeHTTPImageOptions o).maxConcurrentConnections ∧
    (normalizeHTTPImageOptions o).concurrentRequestsNonReusable ≤
      (normalizeHTTPImageOptions o).concurrentRequestsReusable := by
  obtain ⟨r, nr, g⟩ := o
  simp only [normalizeHTTPImageOptions, REUSABLE_DEFAULT, NON_REUSABLE_DEFAULT, GLOBAL_DEFAULT]
  refine ⟨?_, ?_, ?_, ?_, ?_⟩ <;>
    split_ifs <;>
      simp_all [GetHTTPImageOptions.mk.injEq] <;> omega

/-!  ## C10: inputs shorter than 80 bytes -/

/-- C10: on any byte slice shorter than 80 bytes — even a complete, valid
image header — `GetInfo` returns the zero `Info` and `GetType` returns
`unknown`. -/
theorem C10_short_input (p : List Byte) (h : p.length < 80) :
    GetInfo p = some zeroInfo ∧ GetType p = .unknown := by
  rw [GetInfo, GetType]
  simp [h]

/-- A complete, well-formed 10-byte GIF header (`GIF89a`, 60×40): the
sniffer parses it on long inputs, yet below 80 bytes it is rejected. -/
def shortGIFHeader : List Byte := [71, 73, 70, 56, 57, 97, 60, 0, 40, 0]

/-- Witness for C10 at a valid short GIF header. -/
theorem C10_short_input_witness :
    (shortGIFHeader.length < 80 ∧ hasGIF shortGIFHeader = true) ∧
      GetInfo shortGIFHeader = some zeroInfo ∧ GetType shortGIFHeader = .unknown :=
  ⟨by decide, C10_short_input shortGIFHeader (by decide)⟩

/-!  ## C9: gate acquisition is atomic w.r.t. cancellation and failure -/

/-- C9: a cancelled `select` during global acquisition holds no slot; a
cancelled origin acquisition after the global gate was taken releases the
global slot before the error returns; in both cases the admission state is
exactly as before and the task gets a cancellation error. -/
theorem C9_gate_atomicity :
    (∀ used, acquire true used = (used, some .cancelled)) ∧
    (∀ l : OriginLimiterState, l.acquire .ctxDone = none) ∧
    (∀ sniff doReqA sleepOutcome oOut rawURL sizes st,
      fetchImageInfo sniff doReqA sleepOutcome true oOut rawURL sizes st =
        (st, zeroInfo, some .cancelled)) ∧
    (∀ sniff doReqA sleepOutcome oOut rawURL sizes (st : GateState),
      st.limiter.acquire oOut = none →
      fetchImageInfo sniff doReqA sleepOutcome false oOut rawURL sizes st =
        (st, zeroInfo, some .cancelled)) := by
  refine ⟨fun used => rfl, fun l => ?_, fun sniff doReqA sleepOutcome oOut rawURL sizes st => ?_,
    fun sniff doReqA sleepOutcome oOut rawURL sizes st h => ?_⟩
  · rw [OriginLimiterState.acquire]
    split <;> rfl
  · rfl
  · rw [fetchImageInfo]
    simp only [acquire, if_neg Bool.false_ne_true, h, release, Nat.add_sub_cancel]

/-- Witness for C9 at a concrete admission state whose origin `select` is
won by `ctx.Done()`. -/
theorem C9_gate_atomicity_witness :
    ((newOriginLimiter 5 20).acquire .ctxDone = none) ∧
      fetchImageInfo (fun _ => zeroInfo) (fun _ _ => .error (.transport "t"))
          (fun _ => none) false .ctxDone "http://e/x" [1024] ⟨3, newOriginLimiter 5 20⟩ =
        (⟨3, newOriginLimiter 5 20⟩, zeroInfo, some .cancelled) :=
  ⟨by decide,
    C9_gate_atomicity.2.2.2 (fun _ => zeroInfo) (fun _ _ => .error (.transport "t"))
      (fun _ => none) .ctxDone "http://e/x" [1024] ⟨3, newOriginLimiter 5 20⟩ (by decide)⟩

/-!  ## C6: the per-origin `rangeSupported` flag and the two admission tiers -/

/-- Lemma: `fetchImageInfoOnce` never clears an already-set `rangeSupported` flag. -/
theorem fetchOnce_rs_mono (sniff : List Byte → Info)
    (doReq : Nat → Except GoError HTTPResponse) (rawURL : String) (minBytes : Nat)
    (l : OriginLimiterState) (h : l.rangeSupported = true) :
    (fetchImageInfoOnce sniff doReq rawURL minBytes l).limiter.rangeSupported = true := by
  rw [fetchImageInfoOnce]
  dsimp only
  repeat' split
  all_goals simp_all [OriginLimiterState.enableReusable]

/-- The budget loop never clears an already-set `rangeSupported` flag. -/
theorem progLoop_rs_mono (sniff : List Byte → Info)
    (doReq : Nat → Except GoError HTTPResponse) (rawURL : String) :
    ∀ (sizes : List Nat) (info : Info) (lastRead : Nat) (l : OriginLimiterState),
      l.rangeSupported = true →
      (progLoop sniff doReq rawURL sizes info lastRead l).limiter.rangeSupported = true := by
  intro sizes
  induction sizes with
  | nil => intro info lastRead l h; simpa [progLoop] using h
  | cons s rest ih =>
    intro info lastRead l h
    rw [progLoop]
    dsimp only
    split
    · exact ih _ _ _ h
    · have hm := fetchOnce_rs_mono sniff doReq rawURL s l h
      split
      · simpa using hm
      · split
        · simpa using hm
        · split
          · simpa using ih _ _ _ hm
          · simpa using hm

/-- The retry loop never clears an already-set `rangeSupported` flag. -/
theorem retryLoop_rs_mono (sniff : List Byte → Info)
    (doReqA : Nat → Nat → Except GoError HTTPResponse)
    (sleepOutcome : Nat → Option GoError) (rawURL : String) (sizes : List Nat) :
    ∀ (remaining attempt : Nat) (l : OriginLimiterState), l.rangeSupported = true →
      (retryLoop sniff doReqA sleepOutcome rawURL sizes remaining attempt l).limiter.rangeSupported
        = true := by
  intro remaining
  induction remaining with
  | zero => intro attempt l h; simpa [retryLoop] using h
  | succ n ih =>
    intro attempt l h
    rw [retryLoop]
    dsimp only
    have hp := progLoop_rs_mono sniff (doReqA attempt) rawURL sizes zeroInfo 0 l h
    split
    · simpa [fetchImageInfoProgressive] using hp
    · split
      · simpa [fetchImageInfoProgressive] using hp
      · split
        · simpa [fetchImageInfoProgressive] using hp
        · simpa using ih _ _ (by simpa [fetchImageInfoProgressive] using hp)

/-- Case analysis of a successful `originLimiter.acquire`: either the base
slot was taken, or the extra slot was — the latter only with the flag set
and non-zero extra capacity. -/
theorem acquire_cases (l l' : OriginLimiterState) (out : OriginAcqOutcome) (tag : OriginTag)
    (h : l.acquire out = some (l', tag)) :
    (tag = .base ∧ l' = { l with baseUsed := l.baseUsed + 1 }) ∨
    (tag = .extra ∧ l' = { l with extraUsed := l.extraUsed + 1 } ∧
      l.rangeSupported = true ∧ 0 < l.extraCap) := by
  rw [OriginLimiterState.acquire.eq_def] at h
  split at h
  · rename_i hcond
    cases out with
    | base =>
      simp only [Option.some.injEq, Prod.mk.injEq] at h
      exact Or.inl ⟨h.2.symm, h.1.symm⟩
    | extra =>
      simp only [Option.some.injEq, Prod.mk.injEq] at h
      exact Or.inr ⟨h.2.symm, h.1.symm, hcond.1, hcond.2⟩
    | ctxDone => cases h
  · cases out with
    | base =>
      simp only [Option.some.injEq, Prod.mk.injEq] at h
      exact Or.inl ⟨h.2.symm, h.1.symm⟩
    | extra => cases h
    | ctxDone => cases h

/-- C6: the origin limiter's flag starts `false`, `enableReusable` sets it
idempotently, a 206 response sets it, no operation of the pipeline ever
resets it, and a successful acquisition obtains the extra tier only when
the flag is set and extra capacity (reusable − non-reusable) exists —
otherwise only the base tier. -/
theorem C6_range_supported_flag :
    (∀ n r, (newOriginLimiter n r).rangeSupported = false) ∧
    (∀ n r, 1 ≤ n → n ≤ r →
      (newOriginLimiter n r).baseCap = n.toNat ∧
        (newOriginLimiter n r).extraCap = (r - n).toNat) ∧
    (∀ l : OriginLimiterState,
      l.enableReusable.rangeSupported = true ∧
        l.enableReusable.enableReusable = l.enableReusable) ∧
    (∀ sniff doReq rawURL minBytes (l : OriginLimiterState) resp,
      doReq minBytes = Except.ok resp → resp.statusCode = 206 →
      (fetchImageInfoOnce sniff doReq rawURL minBytes l).limiter.rangeSupported = true) ∧
    (∀ sniff doReqA sleepOutcome rawURL sizes remaining attempt (l : OriginLimiterState),
      l.rangeSupported = true →
      (retryLoop sniff doReqA sleepOutcome rawURL sizes remaining attempt l).limiter.rangeSupported
        = true) ∧
    (∀ (l l' : OriginLimiterState) out tag, l.acquire out = some (l', tag) →
      l'.rangeSupported = l.rangeSupported) ∧
    (∀ (l : OriginLimiterState) tag, (l.releaseTag tag).rangeSupported = l.rangeSupported) ∧
    (∀ (l l' : OriginLimiterState) out, l.acquire out = some (l', .extra) →
      l.rangeSupported = true ∧ 0 < l.extraCap) ∧
    (∀ (l l' : OriginLimiterState) out tag, ¬(l.rangeSupported = true ∧ 0 < l.extraCap) →
      l.acquire out = some (l', tag) → tag = .base) := by
  refine ⟨fun n r => rfl, fun n r h1 h2 => ?_, fun l => ⟨rfl, rfl⟩, ?_, ?_, ?_, ?_, ?_, ?_⟩
  · simp only [newOriginLimiter]
    rw [if_neg (by omega), if_neg (by omega)]
    exact ⟨rfl, rfl⟩
  · intro sniff doReq rawURL minBytes l resp hr h206
    simp only [fetchImageInfoOnce, hr, h206]
    repeat' split
    all_goals simp_all [OriginLimiterState.enableReusable]
  · exact fun sniff doReqA sleepOutcome rawURL sizes remaining attempt l h =>
      retryLoop_rs_mono sniff doReqA sleepOutcome rawURL sizes remaining attempt l h
  · intro l l' out tag h
    rcases acquire_cases l l' out tag h with ⟨-, h2⟩ | ⟨-, h2, -, -⟩ <;> rw [h2]
  · intro l tag
    cases tag <;> rfl
  · intro l l' out h
    rcases acquire_cases l l' out .extra h with ⟨h1, -⟩ | ⟨-, -, h3, h4⟩
    · cases h1
    · exact ⟨h3, h4⟩
  · intro l l' out tag hflag h
    rcases acquire_cases l l' out tag h with ⟨h1, -⟩ | ⟨-, -, h3, h4⟩
    · exact h1
    · exact absurd ⟨h3, h4⟩ hflag

/-- Witness for C6: a 206 response sets the flag, and an extra-tier
acquisition on an enabled limiter certifies flag and extra capacity. -/
theorem C6_range_supported_flag_witness :
    (fetchImageInfoOnce (fun _ => zeroInfo)
        (fun _ => Except.ok ⟨206, "206 Partial Content", 0, List.replicate 100 0, none⟩)
        "http://e/x" 1024 (newOriginLimiter 5 20)).limiter.rangeSupported = true ∧
    ((newOriginLimiter 5 20).enableReusable.acquire .extra =
        some ({ (newOriginLimiter 5 20).enableReusable with extraUsed := 1 }, .extra)) ∧
    ((newOriginLimiter 5 20).enableReusable.rangeSupported = true ∧
      0 < (newOriginLimiter 5 20).enableReusable.extraCap) :=
  ⟨C6_range_supported_flag.2.2.2.1 (fun _ => zeroInfo)
      (fun _ => Except.ok ⟨206, "206 Partial Content", 0, List.replicate 100 0, none⟩)
      "http://e/x" 1024 (newOriginLimiter 5 20)
      ⟨206, "206 Partial Content", 0, List.replicate 100 0, none⟩ rfl rfl,
    by decide,
    C6_range_supported_flag.2.2.2.2.2.2.2.1 (newOriginLimiter 5 20).enableReusable
      { (newOriginLimiter 5 20).enableReusable with extraUsed := 1 } .extra (by decide)⟩

/-!  ## C5: the retry/backoff policy -/

/-- One unfolding of the retry loop at a live attempt. -/
theorem retryLoop_succ (sniff : List Byte → Info)
    (doReqA : Nat → Nat → Except GoError HTTPResponse)
    (sleepOutcome : Nat → Option GoError) (rawURL : String) (sizes : List Nat)
    (remaining attempt : Nat) (l : OriginLimiterState) :
    retryLoop sniff doReqA sleepOutcome rawURL sizes (remaining + 1) attempt l =
      (let pr := fetchImageInfoProgressive sniff (doReqA attempt) rawURL sizes l
       match pr.err with
       | none => ⟨pr.info, none, pr.limiter, [pr.attempted], []⟩
       | some e =>
         if pr.retryAfter = 0 ∨ attempt = 1 then
           ⟨pr.info, some e, pr.limiter, [pr.attempted], []⟩
         else
           match sleepOutcome pr.retryAfter with
           | some cerr => ⟨pr.info, some cerr, pr.limiter, [pr.attempted], []⟩
           | none =>
             let rr := retryLoop sniff doReqA sleepOutcome rawURL sizes remaining (attempt + 1)
               pr.limiter
             ⟨rr.info, rr.err, rr.limiter, pr.attempted :: rr.attempts,
               pr.retryAfter :: rr.sleeps⟩) := rfl

/-- C5: the retry policy runs the progressive sequence once; a success or a
failure without retry-after signal is returned as-is with no sleep and no
second attempt; a retry-after signal leads to exactly one completed sleep
of that duration and one full re-run of the progressive sequence whose
outcome — success, failure, or second rate-limit — is returned as-is; a
cancelled sleep surfaces the cancellation. -/
theorem C5_retry_policy (sniff : List Byte → Info)
    (doReqA : Nat → Nat → Except GoError HTTPResponse)
    (sleepOutcome : Nat → Option GoError) (rawURL : String) (sizes : List Nat)
    (l : OriginLimiterState) :
    (∀ info ra l0 tr,
      fetchImageInfoProgressive sniff (doReqA 0) rawURL sizes l = ⟨info, ra, none, l0, tr⟩ →
      fetchImageInfoWithRetry sniff doReqA sleepOutcome rawURL sizes l =
        ⟨info, none, l0, [tr], []⟩) ∧
    (∀ info e l0 tr,
      fetchImageInfoProgressive sniff (doReqA 0) rawURL sizes l = ⟨info, 0, some e, l0, tr⟩ →
      fetchImageInfoWithRetry sniff doReqA sleepOutcome rawURL sizes l =
        ⟨info, some e, l0, [tr], []⟩) ∧
    (∀ info ra e l0 tr cerr,
      fetchImageInfoProgressive sniff (doReqA 0) rawURL sizes l = ⟨info, ra, some e, l0, tr⟩ →
      0 < ra → sleepOutcome ra = some cerr →
      fetchImageInfoWithRetry sniff doReqA sleepOutcome rawURL sizes l =
        ⟨info, some cerr, l0, [tr], []⟩) ∧
    (∀ info ra e l0 tr,
      fetchImageInfoProgressive sniff (doReqA 0) rawURL sizes l = ⟨info, ra, some e, l0, tr⟩ →
      0 < ra → sleepOutcome ra = none →
      ∀ info1 ra1 e1 l1 tr1,
        fetchImageInfoProgressive sniff (doReqA 1) rawURL sizes l0 = ⟨info1, ra1, e1, l1, tr1⟩ →
        fetchImageInfoWithRetry sniff doReqA sleepOutcome rawURL sizes l =
          ⟨info1, e1, l1, [tr, tr1], [ra]⟩) := by
  refine ⟨?_, ?_, ?_, ?_⟩
  · intro info ra l0 tr h0
    rw [fetchImageInfoWithRetry, show (2 : Nat) = 1 + 1 from rfl, retryLoop_succ, h0]
  · intro info e l0 tr h0
    rw [fetchImageInfoWithRetry, show (2 : Nat) = 1 + 1 from rfl, retryLoop_succ, h0]
    dsimp only
    rw [if_pos (Or.inl rfl)]
  · intro info ra e l0 tr cerr h0 hra hs
    rw [fetchImageInfoWithRetry, show (2 : Nat) = 1 + 1 from rfl, retryLoop_succ, h0]
    dsimp only
    rw [if_neg (by omega), hs]
  · intro info ra e l0 tr h0 hra hs info1 ra1 e1 l1 tr1 h1
    rw [fetchImageInfoWithRetry, show (2 : Nat) = 1 + 1 from rfl, retryLoop_succ, h0]
    dsimp only
    rw [if_neg (by omega), hs, show (1 : Nat) = 0 + 1 from rfl, retryLoop_succ, h1]
    dsimp only
    cases e1 with
    | none => rfl
    | some e1v => simp

/-- Witness for C5: a first attempt that rate-limits with a 1-second wait,
then a second attempt that fails with a status error, surfaced as-is after
exactly one sleep of 1 second. -/
theorem C5_retry_policy_witness :
    (fetchImageInfoProgressive (fun _ => zeroInfo)
        ((fun k _ => if k = 0 then Except.ok ⟨429, "429 Too Many Requests", 1, [], none⟩
          else Except.ok ⟨500, "500 Internal Server Error", 0, [], none⟩) 0)
        "http://e/x" [1024] (newOriginLimiter 5 20) =
      ⟨zeroInfo, 1, some (.retryAfter "http://e/x" 429 "429 Too Many Requests" 1),
        newOriginLimiter 5 20, [1024]⟩) ∧
    (0 : Nat) < 1 ∧
    (fetchImageInfoProgressive (fun _ => zeroInfo)
        ((fun k _ => if k = 0 then Except.ok ⟨429, "429 Too Many Requests", 1, [], none⟩
          else Except.ok ⟨500, "500 Internal Server Error", 0, [], none⟩) 1)
        "http://e/x" [1024] (newOriginLimiter 5 20) =
      ⟨zeroInfo, 0, some (.httpStatus "http://e/x" 500 "500 Internal Server Error"),
        newOriginLimiter 5 20, [1024]⟩) ∧
    fetchImageInfoWithRetry (fun _ => zeroInfo)
        (fun k _ => if k = 0 then Except.ok ⟨429, "429 Too Many Requests", 1, [], none⟩
          else Except.ok ⟨500, "500 Internal Server Error", 0, [], none⟩)
        (fun _ => none) "http://e/x" [1024] (newOriginLimiter 5 20) =
      ⟨zeroInfo, some (.httpStatus "http://e/x" 500 "500 Internal Server Error"),
        newOriginLimiter 5 20, [[1024], [1024]], [1]⟩ :=
  ⟨by decide, by decide, by decide,
    (C5_retry_policy (fun _ => zeroInfo)
        (fun k _ => if k = 0 then Except.ok ⟨429, "429 Too Many Requests", 1, [], none⟩
          else Except.ok ⟨500, "500 Internal Server Error", 0, [], none⟩)
        (fun _ => none) "http://e/x" [1024] (newOriginLimiter 5 20)).2.2.2
      zeroInfo 1 (.retryAfter "http://e/x" 429 "429 Too Many Requests" 1)
      (newOriginLimiter 5 20) [1024] (by decide) (by decide) rfl
      zeroInfo 0 (some (.httpStatus "http://e/x" 500 "500 Internal Server Error"))
      (newOriginLimiter 5 20) [1024] (by decide)⟩

/-!  ## C4: the progressive range fetcher -/

/-- The budgets actually requested form a subsequence of the configured
budget list (ascending order is preserved, nothing is requested twice). -/
theorem progLoop_attempted_sublist (sniff : List Byte → Info)
    (doReq : Nat → Except GoError HTTPResponse) (rawURL : String) :
    ∀ (sizes : List Nat) (info : Info) (lastRead : Nat) (l : OriginLimiterState),
      (progLoop sniff doReq rawURL sizes info lastRead l).attempted.Sublist sizes := by
  intro sizes
  induction sizes with
  | nil => intro info lastRead l; simp [progLoop]
  | cons s rest ih =>
    intro info lastRead l
    rw [progLoop]
    dsimp only
    split
    · exact (ih info lastRead l).cons s
    · split
      · exact (List.nil_sublist rest).cons₂ s
      · split
        · exact (List.nil_sublist rest).cons₂ s
        · split
          · exact (ih _ _ _).cons₂ s
          · exact (List.nil_sublist rest).cons₂ s

/-- Lemma: `fetchImageInfoOnce` on a rate-limit status with a parseable
`Retry-After`: the retry-after signal, before any 206 handling. -/
theorem fetchOnce_rateLimited (sniff : List Byte → Info)
    (doReq : Nat → Except GoError HTTPResponse) (rawURL : String) (size : Nat)
    (l : OriginLimiterState) (resp : HTTPResponse) (hr : doReq size = Except.ok resp)
    (hstat : resp.statusCode = 429 ∨ resp.statusCode = 503) (hra : 0 < resp.retryAfter) :
    fetchImageInfoOnce sniff doReq rawURL size l =
      ⟨zeroInfo, resp.retryAfter,
        some (.retryAfter rawURL resp.statusCode resp.status resp.retryAfter), false, 0, l⟩ := by
  rw [fetchImageInfoOnce, hr]
  dsimp only
  rw [if_pos ⟨hstat, hra⟩]

/-- Lemma: `fetchImageInfoOnce` on any other non-200/206 status: the status error. -/
theorem fetchOnce_statusError (sniff : List Byte → Info)
    (doReq : Nat → Except GoError HTTPResponse) (rawURL : String) (size : Nat)
    (l : OriginLimiterState) (resp : HTTPResponse) (hr : doReq size = Except.ok resp)
    (hnotra : ¬((resp.statusCode = 429 ∨ resp.statusCode = 503) ∧ 0 < resp.retryAfter))
    (h200 : resp.statusCode ≠ 200) (h206 : resp.statusCode ≠ 206) :
    fetchImageInfoOnce sniff doReq rawURL size l =
      ⟨zeroInfo, 0, some (.httpStatus rawURL resp.statusCode resp.status), false, 0, l⟩ := by
  rw [fetchImageInfoOnce, hr]
  dsimp only
  rw [if_neg hnotra, if_pos ⟨h200, h206⟩, if_neg h206]

/-- Lemma: `fetchImageInfoOnce` on a 200/206 whose capped body is shorter than 80
bytes: the insufficient-bytes error recording bytes obtained and the
minimum. -/
theorem fetchOnce_short (sniff : List Byte → Info)
    (doReq : Nat → Except GoError HTTPResponse) (rawURL : String) (size : Nat)
    (l : OriginLimiterState) (resp : HTTPResponse) (hr : doReq size = Except.ok resp)
    (hstat : resp.statusCode = 200 ∨ resp.statusCode = 206)
    (hbody : resp.bodyReadError = none) (hshort : (resp.body.take size).length < 80) :
    fetchImageInfoOnce sniff doReq rawURL size l =
      ⟨zeroInfo, 0, some (.insufficientBytes (resp.body.take size).length 80), false,
        (resp.body.take size).length,
        if resp.statusCode = 206 then l.enableReusable else l⟩ := by
  rw [fetchImageInfoOnce, hr]
  dsimp only
  rw [if_neg (by rcases hstat with h | h <;> simp [h]), if_neg (by omega), hbody]
  dsimp only
  rw [if_pos hshort]

/-- Lemma: `fetchImageInfoOnce` on a 200/206 whose sniffed header resolves: the
successful result, `needMore = false`. -/
theorem fetchOnce_resolved (sniff : List Byte → Info)
    (doReq : Nat → Except GoError HTTPResponse) (rawURL : String) (size : Nat)
    (l : OriginLimiterState) (resp : HTTPResponse) (hr : doReq size = Except.ok resp)
    (hstat : resp.statusCode = 200 ∨ resp.statusCode = 206)
    (hbody : resp.bodyReadError = none) (hlong : 80 ≤ (resp.body.take size).length)
    (ht : (sniff (resp.body.take size)).type ≠ .unknown)
    (hw : (sniff (resp.body.take size)).width ≠ 0)
    (hh : (sniff (resp.body.take size)).height ≠ 0) :
    fetchImageInfoOnce sniff doReq rawURL size l =
      ⟨sniff (resp.body.take size), 0, none, false, (resp.body.take size).length,
        if resp.statusCode = 206 then l.enableReusable else l⟩ := by
  rw [fetchImageInfoOnce, hr]
  dsimp only
  rw [if_neg (by rcases hstat with h | h <;> simp [h]), if_neg (by omega), hbody]
  dsimp only
  rw [if_neg (by omega), if_neg (by simp [ht, hw, hh])]

/-- Lemma: `fetchImageInfoOnce` on a 200/206 whose sniffed header does not
resolve: no error, `needMore = true`. -/
theorem fetchOnce_needMore (sniff : List Byte → Info)
    (doReq : Nat → Except GoError HTTPResponse) (rawURL : String) (size : Nat)
    (l : OriginLimiterState) (resp : HTTPResponse) (hr : doReq size = Except.ok resp)
    (hstat : resp.statusCode = 200 ∨ resp.statusCode = 206)
    (hbody : resp.bodyReadError = none) (hlong : 80 ≤ (resp.body.take size).length)
    (hun : (sniff (resp.body.take size)).type = .unknown ∨
      (sniff (resp.body.take size)).width = 0 ∨ (sniff (resp.body.take size)).height = 0) :
    fetchImageInfoOnce sniff doReq rawURL size l =
      ⟨sniff (resp.body.take size), 0, none, true, (resp.body.take size).length,
        if resp.statusCode = 206 then l.enableReusable else l⟩ := by
  rw [fetchImageInfoOnce, hr]
  dsimp only
  rw [if_neg (by rcases hstat with h | h <;> simp [h]), if_neg (by omega), hbody]
  dsimp only
  rw [if_neg (by omega), if_pos (by simpa using hun)]

/-- C4 (amended): per budget, in list order — budgets below 80 bytes are
skipped; a 429/503 response with a parseable `Retry-After` aborts with the
retry-after signal (this is the exception to the claim as stated); any
other non-200/206 status aborts with an `HTTPStatusError` carrying URL,
code and status text; at most `size` bytes are read; fewer than 80 bytes
read aborts with an `InsufficientBytesError` recording bytes obtained and
the 80-byte minimum; a resolved sniff (concrete type, both dimensions
non-zero) stops the sequence with no further budget; an unresolved sniff
continues with the next budget; an exhausted budget list yields the
insufficient-bytes error; the requested budgets are a subsequence of the
configured ones. -/
theorem C4_progressive_fetch (sniff : List Byte → Info)
    (doReq : Nat → Except GoError HTTPResponse) (rawURL : String) :
    (∀ size rest (info : Info) lastRead (l : OriginLimiterState), size < 80 →
      progLoop sniff doReq rawURL (size :: rest) info lastRead l =
        progLoop sniff doReq rawURL rest info lastRead l) ∧
    (∀ size rest (info : Info) lastRead (l : OriginLimiterState) resp,
      doReq size = Except.ok resp → (resp.statusCode = 429 ∨ resp.statusCode = 503) →
      0 < resp.retryAfter → 80 ≤ size →
      progLoop sniff doReq rawURL (size :: rest) info lastRead l =
        ⟨zeroInfo, resp.retryAfter,
          some (.retryAfter rawURL resp.statusCode resp.status resp.retryAfter), l, [size]⟩) ∧
    (∀ size rest (info : Info) lastRead (l : OriginLimiterState) resp,
      doReq size = Except.ok resp →
      ¬((resp.statusCode = 429 ∨ resp.statusCode = 503) ∧ 0 < resp.retryAfter) →
      resp.statusCode ≠ 200 → resp.statusCode ≠ 206 → 80 ≤ size →
      progLoop sniff doReq rawURL (size :: rest) info lastRead l =
        ⟨zeroInfo, 0, some (.httpStatus rawURL resp.statusCode resp.status), l, [size]⟩) ∧
    (∀ size (l : OriginLimiterState),
      (fetchImageInfoOnce sniff doReq rawURL size l).readBytes ≤ size) ∧
    (∀ size rest (info : Info) lastRead (l : OriginLimiterState) resp,
      doReq size = Except.ok resp → (resp.statusCode = 200 ∨ resp.statusCode = 206) →
      resp.bodyReadError = none → (resp.body.take size).length < 80 → 80 ≤ size →
      progLoop sniff doReq rawURL (size :: rest) info lastRead l =
        ⟨zeroInfo, 0, some (.insufficientBytes (resp.body.take size).length 80),
          (if resp.statusCode = 206 then l.enableReusable else l), [size]⟩) ∧
    (∀ size rest (info : Info) lastRead (l : OriginLimiterState) resp,
      doReq size = Except.ok resp → (resp.statusCode = 200 ∨ resp.statusCode = 206) →
      resp.bodyReadError = none → 80 ≤ (resp.body.take size).length →
      (sniff (resp.body.take size)).type ≠ .unknown →
      (sniff (resp.body.take size)).width ≠ 0 → (sniff (resp.body.take size)).height ≠ 0 →
      80 ≤ size →
      progLoop sniff doReq rawURL (size :: rest) info lastRead l =
        ⟨sniff (resp.body.take size), 0, none,
          (if resp.statusCode = 206 then l.enableReusable else l), [size]⟩) ∧
    (∀ size rest (info : Info) lastRead (l : OriginLimiterState) resp,
      doReq size = Except.ok resp → (resp.statusCode = 200 ∨ resp.statusCode = 206) →
      resp.bodyReadError = none → 80 ≤ (resp.body.take size).length →
      ((sniff (resp.body.take size)).type = .unknown ∨
        (sniff (resp.body.take size)).width = 0 ∨ (sniff (resp.body.take size)).height = 0) →
      80 ≤ size →
      progLoop sniff doReq rawURL (size :: rest) info lastRead l =
        (let pr := progLoop sniff doReq rawURL rest (sniff (resp.body.take size))
          (resp.body.take size).length
          (if resp.statusCode = 206 then l.enableReusable else l)
         ⟨pr.info, pr.retryAfter, pr.err, pr.limiter, size :: pr.attempted⟩)) ∧
    (∀ (info : Info) lastRead (l : OriginLimiterState),
      progLoop sniff doReq rawURL [] info lastRead l =
        ⟨info, 0, some (.insufficientBytes lastRead 80), l, []⟩) ∧
    (∀ (sizes : List Nat) (info : Info) lastRead (l : OriginLimiterState),
      (progLoop sniff doReq rawURL sizes info lastRead l).attempted.Sublist sizes) := by
  refine ⟨?_, ?_, ?_, ?_, ?_, ?_, ?_, fun info lastRead l => rfl,
    progLoop_attempted_sublist sniff doReq rawURL⟩
  · intro size rest info lastRead l hlt
    rw [progLoop]
    dsimp only
    rw [if_pos hlt]
  · intro size rest info lastRead l resp hr hstat hra hge
    rw [progLoop]
    dsimp only
    rw [if_neg (by omega), fetchOnce_rateLimited sniff doReq rawURL size l resp hr hstat hra]
    dsimp only
    rw [if_pos hra]
  · intro size rest info lastRead l resp hr hnotra h200 h206 hge
    rw [progLoop]
    dsimp only
    rw [if_neg (by omega),
      fetchOnce_statusError sniff doReq rawURL size l resp hr hnotra h200 h206]
    dsimp only
    rw [if_neg (by omega)]
  · intro size l
    rw [fetchImageInfoOnce]
    dsimp only
    repeat' split
    all_goals dsimp only
    all_goals simp [List.length_take]
  · intro size rest info lastRead l resp hr hstat hbody hshort hge
    rw [progLoop]
    dsimp only
    rw [if_neg (by omega), fetchOnce_short sniff doReq rawURL size l resp hr hstat hbody hshort]
    dsimp only
    rw [if_neg (by omega)]
  · intro size rest info lastRead l resp hr hstat hbody hlong ht hw hh hge
    rw [progLoop]
    dsimp only
    rw [if_neg (by omega),
      fetchOnce_resolved sniff doReq rawURL size l resp hr hstat hbody hlong ht hw hh]
    dsimp only
    simp
  · intro size rest info lastRead l resp hr hstat hbody hlong hun hge
    rw [progLoop]
    dsimp only
    rw [if_neg (by omega),
      fetchOnce_needMore sniff doReq rawURL size l resp hr hstat hbody hlong hun]
    dsimp only
    have hpos : 0 < (resp.body.take size).length := by omega
    simp only [List.length_take] at hpos
    have h1 : 0 < size := by omega
    have h2 : 0 < resp.body.length := by omega
    simp [h1, h2]

/-- Counterexample to C4 as stated: a 429 response (neither 200 nor 206)
carrying `Retry-After: 1` does not yield a status error — the sequence
aborts with a `RetryAfterError` and a retry-after signal instead. -/
theorem C4_counterexample :
    (fetchImageInfoProgressive (fun _ => zeroInfo)
        (fun _ => Except.ok ⟨429, "429 Too Many Requests", 1, [], none⟩)
        "http://e/x" [1024, 4096, 16384, 65536, 262144] (newOriginLimiter 5 20)).err =
      some (.retryAfter "http://e/x" 429 "429 Too Many Requests" 1) ∧
    ((fetchImageInfoProgressive (fun _ => zeroInfo)
        (fun _ => Except.ok ⟨429, "429 Too Many Requests", 1, [], none⟩)
        "http://e/x" [1024, 4096, 16384, 65536, 262144] (newOriginLimiter 5 20)).err.map
      GoError.isHTTPStatusError) = some false ∧
    (fetchImageInfoProgressive (fun _ => zeroInfo)
        (fun _ => Except.ok ⟨429, "429 Too Many Requests", 1, [], none⟩)
        "http://e/x" [1024, 4096, 16384, 65536, 262144] (newOriginLimiter 5 20)).retryAfter =
      1 := by
  decide

/-- Witness for C4 at a concrete 404 response: a genuine status error
aborts the sequence on its first budget. -/
theorem C4_progressive_fetch_witness :
    progLoop (fun _ => zeroInfo) (fun _ => Except.ok ⟨404, "404 Not Found", 0, [], none⟩)
        "http://e/x" (1024 :: [4096]) zeroInfo 0 (newOriginLimiter 5 20) =
      ⟨zeroInfo, 0, some (.httpStatus "http://e/x" 404 "404 Not Found"),
        newOriginLimiter 5 20, [1024]⟩ :=
  (C4_progressive_fetch (fun _ => zeroInfo)
      (fun _ => Except.ok ⟨404, "404 Not Found", 0, [], none⟩) "http://e/x").2.2.1
    1024 [4096] zeroInfo 0 (newOriginLimiter 5 20) ⟨404, "404 Not Found", 0, [], none⟩
    rfl (by decide) (by decide) (by decide) (by decide)

/-!  ## C2 and C3: the header sniffer -/

/-- Any `Info` the jpeg marker scan produces without panicking is either
still zero or has been stamped `jpeg` (dimensions unchecked). -/
theorem jpegLoop_shape (b : List Byte) :
    ∀ k i info, b.length - i ≤ k → jpegLoop b i = some info →
      info = zeroInfo ∨ info.type = .jpeg := by
  intro k
  induction k with
  | zero =>
    intro i info hk h
    rw [jpegLoop] at h
    rw [dif_neg (by omega)] at h
    cases h
  | succ k ih =>
    intro i info hk h
    rw [jpegLoop] at h
    by_cases hb : i + 3 < b.length
    · rw [dif_pos hb] at h
      split at h
      · exact Or.inl (Option.some.injEq .. |>.mp h).symm
      · split at h
        · split at h
          · refine Or.inr ?_
            rw [← (Option.some.injEq .. |>.mp h)]
          · cases h
        · exact ih _ info (by omega) h
    · rw [dif_neg hb] at h
      cases h

/-- The jpeg scan at the whole-function level. -/
theorem jpeg_shape (b : List Byte) (info : Info) (h : jpeg b = some info) :
    info = zeroInfo ∨ info.type = .jpeg :=
  jpegLoop_shape b b.length 2 info (by omega) h

/-- The dimensions/type equivalence satisfied by every detector except
`jpeg`. -/
def InfoIff (info : Info) : Prop :=
  (0 < info.width ∧ 0 < info.height) ↔ info.type ≠ .unknown

/-- The two C2 clauses follow from `InfoIff`. -/
theorem c2_of_iff {info : Info} (h : InfoIff info) :
    ((0 < info.width ∧ 0 < info.height) → info.type ≠ .unknown) ∧
      (info.type ≠ .unknown → info.type ≠ .jpeg → 0 < info.width ∧ 0 < info.height) :=
  ⟨h.mp, fun hne _ => h.mpr hne⟩

/-- Lemma: `webp` satisfies the equivalence. -/
theorem webp_iff (b : List Byte) : InfoIff (webp b) := by
  rw [InfoIff, webp]
  dsimp only
  split_ifs <;> simp_all [zeroInfo] <;> omega

/-- Lemma: `png` satisfies the equivalence. -/
theorem png_iff (b : List Byte) : InfoIff (png b) := by
  rw [InfoIff, png]
  dsimp only
  split_ifs <;> simp_all [zeroInfo] <;> omega

/-- Lemma: `gif` satisfies the equivalence. -/
theorem gif_iff (b : List Byte) : InfoIff (gif b) := by
  rw [InfoIff, gif]
  dsimp only
  split_ifs <;> simp_all [zeroInfo] <;> omega

/-- Lemma: `bmp` satisfies the equivalence. -/
theorem bmp_iff (b : List Byte) : InfoIff (bmp b) := by
  rw [InfoIff, bmp]
  dsimp only
  split_ifs <;> simp_all [zeroInfo] <;> omega

/-- Lemma: `ppm` satisfies the equivalence under its `hasPPM` guard. -/
theorem ppm_iff (b : List Byte) (hg : hasPPM b = true) : InfoIff (ppm b) := by
  rw [hasPPM, decide_eq_true_eq] at hg
  rw [InfoIff, ppm]
  try dsimp only
  split_ifs <;> simp_all [zeroInfo] <;> omega

/-- Lemma: `xbm` satisfies the equivalence. -/
theorem xbm_iff (b : List Byte) : InfoIff (xbm b) := by
  rw [InfoIff, xbm]
  dsimp only
  split_ifs <;> simp_all [zeroInfo] <;> omega

/-- Lemma: `xpm` satisfies the equivalence whenever it terminates normally. -/
theorem xpm_iff (b : List Byte) (info : Info) (h : xpm b = some info) : InfoIff info := by
  rw [xpm] at h
  split at h
  · cases h
  · injection h with h'
    subst h'
    rw [InfoIff]
    split_ifs <;> simp_all <;> omega

/-- Lemma: `psd` satisfies the equivalence. -/
theorem psd_iff (b : List Byte) : InfoIff (psd b) := by
  rw [InfoIff, psd]
  dsimp only
  split_ifs <;> simp_all [zeroInfo] <;> omega

/-- Lemma: `mng` satisfies the equivalence. -/
theorem mng_iff (b : List Byte) : InfoIff (mng b) := by
  rw [InfoIff, mng]
  dsimp only
  split_ifs <;> simp_all [zeroInfo] <;> omega

/-- Lemma: `rgb` satisfies the equivalence. -/
theorem rgb_iff (b : List Byte) : InfoIff (rgb b) := by
  rw [InfoIff, rgb]
  dsimp only
  split_ifs <;> simp_all [zeroInfo] <;> omega

/-- Lemma: `ras` satisfies the equivalence. -/
theorem ras_iff (b : List Byte) : InfoIff (ras b) := by
  rw [InfoIff, ras]
  dsimp only
  split_ifs <;> simp_all [zeroInfo] <;> omega

/-- Lemma: `pcx` satisfies the equivalence. -/
theorem pcx_iff (b : List Byte) : InfoIff (pcx b) := by
  rw [InfoIff, pcx]
  dsimp only
  split_ifs <;> simp_all [zeroInfo] <;> omega

/-- Lemma: `avif` satisfies the equivalence. -/
theorem avif_iff (b : List Byte) : InfoIff (avif b) := by
  rw [InfoIff, avif]
  try dsimp only
  split_ifs <;> simp_all [zeroInfo] <;> omega

/-- The IFD loop of `tiff` preserves "no type until both dimensions are
positive" and stamps `tiff` exactly when both become positive. -/
theorem tiffLoop_iff (b : List Byte) (order : ByteOrder) (n : Nat) :
    ∀ k i (info info' : Info), n * 12 - i ≤ k → info.type = .unknown →
      ¬(0 < info.width ∧ 0 < info.height) →
      tiffLoop b order n i info = some info' → InfoIff info' := by
  intro k
  induction k with
  | zero =>
    intro i info info' hk ht hd h
    rw [tiffLoop] at h
    rw [if_neg (by omega)] at h
    injection h with h'
    subst h'
    exact iff_of_false hd (by simp [ht])
  | succ k ih =>
    intro i info info' hk ht hd h
    rw [tiffLoop] at h
    by_cases hcond : i < n * 12
    · rw [if_pos hcond] at h
      by_cases hb : i + 4 ≤ b.length
      · rw [if_pos hb] at h
        cases hv : tiffValue b order i with
        | none => rw [hv] at h; cases h
        | some vo =>
          cases vo with
          | none =>
            rw [hv] at h
            injection h with h'
            subst h'
            exact iff_of_false hd (by simp [ht])
          | some value =>
            rw [hv] at h
            dsimp only at h
            repeat' split at h
            all_goals first
              | (rename_i hdims
                 injection h with h'
                 subst h'
                 exact iff_of_true (by simpa using hdims) (by simp))
              | exact ih (i + 12) _ info' (by omega) (by simpa using ht) (by assumption) h
      · rw [if_neg hb] at h
        cases h
    · rw [if_neg hcond] at h
      injection h with h'
      subst h'
      exact iff_of_false hd (by simp [ht])

/-- Lemma: `tiff` satisfies the equivalence whenever it terminates normally. -/
theorem tiff_iff (b : List Byte) (order : ByteOrder) (info : Info)
    (h : tiff b order = some info) : InfoIff info := by
  rw [tiff] at h
  split at h
  · dsimp only at h
    split at h
    · exact tiffLoop_iff b order _ (order.u16 b (order.u32 b 4 + 2) * 12)
        (order.u32 b 4 + 2) zeroInfo info (by omega) rfl (by simp [zeroInfo]) h
    · cases h
  · cases h


/-- An 80-byte buffer holding a complete valid GIF header (60×40). -/
def gifFullInput : List Byte := [71, 73, 70, 56, 57, 97, 60, 0, 40, 0] ++ List.replicate 70 0

/-- C2 (amended): for every `Info` value `GetInfo` produces, positive
dimensions imply a concrete format, and a concrete format other than JPEG
implies positive dimensions; the JPEG branch alone stamps its format
without checking the dimensions. -/
theorem C2_sniffer_invariant (p : List Byte) (info : Info) (h : GetInfo p = some info) :
    ((0 < info.width ∧ 0 < info.height) → info.type ≠ .unknown) ∧
    (info.type ≠ .unknown → info.type ≠ .jpeg → 0 < info.width ∧ 0 < info.height) := by
  rw [GetInfo] at h
  by_cases h80 : p.length < 80
  · rw [if_pos h80] at h
    injection h with h'
    subst h'
    exact c2_of_iff (iff_of_false (by simp [zeroInfo]) (by simp [zeroInfo]))
  · rw [if_neg h80] at h
    by_cases hj : hasJPEG p = true
    · rw [if_pos hj] at h
      rcases jpeg_shape p info h with rfl | hjp
      · exact ⟨fun hdims => absurd hdims (by simp [zeroInfo]), fun hne _ => absurd rfl hne⟩
      · exact ⟨fun _ => by simp [hjp], fun _ hnj => absurd hjp hnj⟩
    · rw [if_neg hj] at h
      by_cases hpng : hasPNG p = true
      · rw [if_pos hpng] at h
        injection h with h'
        subst h'
        exact c2_of_iff (png_iff p)
      · rw [if_neg hpng] at h
        by_cases hwebp : hasWEBP p = true
        · rw [if_pos hwebp] at h
          injection h with h'
          subst h'
          exact c2_of_iff (webp_iff p)
        · rw [if_neg hwebp] at h
          by_cases hgif : hasGIF p = true
          · rw [if_pos hgif] at h
            injection h with h'
            subst h'
            exact c2_of_iff (gif_iff p)
          · rw [if_neg hgif] at h
            by_cases hbmp : hasBMP p = true
            · rw [if_pos hbmp] at h
              injection h with h'
              subst h'
              exact c2_of_iff (bmp_iff p)
            · rw [if_neg hbmp] at h
              by_cases hppm : hasPPM p = true
              · rw [if_pos hppm] at h
                injection h with h'
                subst h'
                exact c2_of_iff (ppm_iff p hppm)
              · rw [if_neg hppm] at h
                by_cases hxbm : hasXBM p = true
                · rw [if_pos hxbm] at h
                  injection h with h'
                  subst h'
                  exact c2_of_iff (xbm_iff p)
                · rw [if_neg hxbm] at h
                  by_cases hxpm : hasXPM p = true
                  · rw [if_pos hxpm] at h
                    exact c2_of_iff (xpm_iff p info h)
                  · rw [if_neg hxpm] at h
                    by_cases htb : hasTIFFBig p = true
                    · rw [if_pos htb] at h
                      exact c2_of_iff (tiff_iff p .big info h)
                    · rw [if_neg htb] at h
                      by_cases htl : hasTIFFLittle p = true
                      · rw [if_pos htl] at h
                        exact c2_of_iff (tiff_iff p .little info h)
                      · rw [if_neg htl] at h
                        by_cases hpsd : hasPSD p = true
                        · rw [if_pos hpsd] at h
                          injection h with h'
                          subst h'
                          exact c2_of_iff (psd_iff p)
                        · rw [if_neg hpsd] at h
                          by_cases hmng : hasMNG p = true
                          · rw [if_pos hmng] at h
                            injection h with h'
                            subst h'
                            exact c2_of_iff (mng_iff p)
                          · rw [if_neg hmng] at h
                            by_cases hrgb : hasRGB p = true
                            · rw [if_pos hrgb] at h
                              injection h with h'
                              subst h'
                              exact c2_of_iff (rgb_iff p)
                            · rw [if_neg hrgb] at h
                              by_cases hras : hasRAS p = true
                              · rw [if_pos hras] at h
                                injection h with h'
                                subst h'
                                exact c2_of_iff (ras_iff p)
                              · rw [if_neg hras] at h
                                by_cases hpcx : hasPCX p = true
                                · rw [if_pos hpcx] at h
                                  injection h with h'
                                  subst h'
                                  exact c2_of_iff (pcx_iff p)
                                · rw [if_neg hpcx] at h
                                  by_cases havif : hasAVIFFtyp p = true
                                  · rw [if_pos havif] at h
                                    injection h with h'
                                    subst h'
                                    exact c2_of_iff (avif_iff p)
                                  · rw [if_neg havif] at h
                                    injection h with h'
                                    subst h'
                                    exact c2_of_iff (iff_of_false (by simp [zeroInfo]) (by simp [zeroInfo]))
/-- Counterexample to C2 as stated: on `FF D8 FF C0 00...` the sniffer
returns format JPEG with width 0 and height 0 — a non-Unknown format with
zero dimensions. -/
theorem C2_counterexample :
    GetInfo jpegZeroDimsInput = some ⟨.jpeg, 0, 0⟩ ∧
      (Info.mk .jpeg 0 0).type ≠ .unknown ∧ ¬(0 < (Info.mk .jpeg 0 0).width) := by
  refine ⟨?_, by decide, by decide⟩
  rw [GetInfo, if_neg (by decide), if_pos (by decide), jpeg, jpegLoop.eq_def,
    dif_pos (by decide), if_neg (by decide), if_pos (by decide), if_pos (by decide)]
  decide

/-- Witness for C2 at a complete 80-byte GIF input. -/
theorem C2_sniffer_invariant_witness :
    GetInfo gifFullInput = some ⟨.gif, 60, 40⟩ ∧
      (((0 < (Info.mk .gif 60 40).width ∧ 0 < (Info.mk .gif 60 40).height) →
          (Info.mk .gif 60 40).type ≠ .unknown) ∧
        ((Info.mk .gif 60 40).type ≠ .unknown → (Info.mk .gif 60 40).type ≠ .jpeg →
          0 < (Info.mk .gif 60 40).width ∧ 0 < (Info.mk .gif 60 40).height)) :=
  ⟨by decide, C2_sniffer_invariant gifFullInput ⟨.gif, 60, 40⟩ (by decide)⟩

/-- C3 (the code bug): `GetInfo` is not total — on the 80-byte input
`FF D8 FF E0 FF FF 00...` the jpeg marker scan advances its index by
`length + 2 = 65537` and dereferences `b[65542]` on an 80-byte slice, an
index-out-of-range panic (`none` in the model); `GetType` on the same
input returns normally. -/
theorem C3_sniffer_panics :
    jpegPanicInput.length = 80 ∧ hasJPEG jpegPanicInput = true ∧
      GetInfo jpegPanicInput = none ∧ GetType jpegPanicInput = .jpeg := by
  refine ⟨by decide, by decide, ?_, by decide⟩
  rw [GetInfo, if_neg (by decide), if_pos (by decide), jpeg, jpegLoop.eq_def,
    dif_pos (by decide), if_neg (by decide), if_neg (by decide)]
  norm_num [show bt jpegPanicInput 5 = 255 from by decide,
    show bt jpegPanicInput 4 = 255 from by decide]
  rw [jpegLoop.eq_def, dif_neg (by decide)]

/-!  ## C1 and C7: the batch orchestrator -/

/-- The grouping loop writes exactly `initSlot` into every slot, in input
order. -/
theorem phase1Go_results (parseOrigin : String → Option String) :
    ∀ (us : List String) (i : Nat) (os : List String) (gs : Groups),
      (phase1Go parseOrigin us i os gs).1 = us.map (initSlot parseOrigin) := by
  intro us
  induction us with
  | nil => intro i os gs; rfl
  | cons u rest ih =>
    intro i os gs
    rw [phase1Go]
    cases hp : parseOrigin u <;> simp [hp, ih, initSlot]

/-- Lemma: `groupsFind` misses exactly the keys absent from the map. -/
theorem groupsFind_none_iff (gs : Groups) (o : String) :
    groupsFind gs o = none ↔ o ∉ gs.map Prod.fst := by
  induction gs with
  | nil => simp [groupsFind]
  | cons kv rest ih =>
    obtain ⟨k, its⟩ := kv
    rw [groupsFind]
    by_cases hk : k = o
    · subst hk
      simp
    · rw [if_neg hk, ih]
      simp only [List.map_cons, List.mem_cons, not_or]
      exact ⟨fun h2 => ⟨fun he => hk he.symm, h2⟩, fun h => h.2⟩

/-- Lemma: `groupsAdd` appends a fresh key, otherwise keeps the key list. -/
theorem groupsAdd_keys (gs : Groups) (o : String) (it : Item) :
    (groupsAdd gs o it).map Prod.fst =
      if o ∈ gs.map Prod.fst then gs.map Prod.fst else gs.map Prod.fst ++ [o] := by
  induction gs with
  | nil => simp [groupsAdd]
  | cons kv rest ih =>
    obtain ⟨k, its⟩ := kv
    rw [groupsAdd]
    by_cases hk : k = o
    · subst hk
      simp
    · rw [if_neg hk]
      have hcond : (o ∈ ((k, its) :: rest).map Prod.fst) ↔ o ∈ rest.map Prod.fst := by
        simp only [List.map_cons, List.mem_cons]
        exact ⟨fun h => h.elim (fun h1 => absurd h1.symm hk) id, Or.inr⟩
      by_cases ho : o ∈ rest.map Prod.fst
      · rw [if_pos (hcond.mpr ho)]
        simp only [List.map_cons]
        rw [ih, if_pos ho]
      · rw [if_neg (fun hx => ho (hcond.mp hx))]
        simp only [List.map_cons]
        rw [ih, if_neg ho]
        rfl

/-- Lemma: `groupsAdd` adds exactly the one item to the bag (up to order). -/
theorem groupsAdd_bag_perm (gs : Groups) (o : String) (it : Item) :
    (itemsBag (groupsAdd gs o it)).Perm (it :: itemsBag gs) := by
  induction gs with
  | nil => simp [groupsAdd, itemsBag]
  | cons kv rest ih =>
    obtain ⟨k, its⟩ := kv
    rw [groupsAdd]
    by_cases hk : k = o
    · subst hk
      rw [if_pos rfl]
      simp only [itemsBag, List.map_cons, List.flatten_cons, List.append_assoc,
        List.singleton_append]
      exact List.perm_middle
    · rw [if_neg hk]
      simp only [itemsBag, List.map_cons, List.flatten_cons]
      exact (ih.append_left its).trans List.perm_middle

/-- The origins list tracks the group keys exactly. -/
theorem phase1Go_keys (parseOrigin : String → Option String) :
    ∀ (us : List String) (i : Nat) (os : List String) (gs : Groups),
      os = gs.map Prod.fst →
      (phase1Go parseOrigin us i os gs).2.1 =
        (phase1Go parseOrigin us i os gs).2.2.map Prod.fst := by
  intro us
  induction us with
  | nil => intro i os gs h; simpa [phase1Go]
  | cons u rest ih =>
    intro i os gs h
    rw [phase1Go]
    cases hp : parseOrigin u with
    | none => exact ih (i + 1) os gs h
    | some origin =>
      dsimp only
      refine ih (i + 1) _ _ ?_
      rw [groupsAdd_keys, ← h]
      by_cases ho : origin ∈ os
      · rw [if_neg (by rw [groupsFind_none_iff, ← h]; exact not_not_intro ho), if_pos ho]
      · rw [if_pos (by rw [groupsFind_none_iff, ← h]; exact ho), if_neg ho]

/-- The group keys stay duplicate-free. -/
theorem phase1Go_keys_nodup (parseOrigin : String → Option String) :
    ∀ (us : List String) (i : Nat) (os : List String) (gs : Groups),
      (gs.map Prod.fst).Nodup →
      ((phase1Go parseOrigin us i os gs).2.2.map Prod.fst).Nodup := by
  intro us
  induction us with
  | nil => intro i os gs h; simpa [phase1Go]
  | cons u rest ih =>
    intro i os gs h
    rw [phase1Go]
    cases hp : parseOrigin u with
    | none => exact ih (i + 1) os gs h
    | some origin =>
      dsimp only
      refine ih (i + 1) _ _ ?_
      rw [groupsAdd_keys]
      by_cases ho : origin ∈ gs.map Prod.fst
      · rwa [if_pos ho]
      · rw [if_neg ho]
        simp [List.nodup_append, h, ho]

/-- The bag of queued items is exactly `okItems`, up to order. -/
theorem phase1Go_bag (parseOrigin : String → Option String) :
    ∀ (us : List String) (i : Nat) (os : List String) (gs : Groups),
      (itemsBag (phase1Go parseOrigin us i os gs).2.2).Perm
        (itemsBag gs ++ okItems parseOrigin i us) := by
  intro us
  induction us with
  | nil => intro i os gs; simp [phase1Go, okItems]
  | cons u rest ih =>
    intro i os gs
    rw [phase1Go, okItems]
    cases hp : parseOrigin u with
    | none => exact ih (i + 1) os gs
    | some origin =>
      dsimp only
      have h1 := ih (i + 1)
        (if groupsFind gs origin = none then os ++ [origin] else os)
        (groupsAdd gs origin ⟨i, u⟩)
      refine h1.trans ?_
      refine ((groupsAdd_bag_perm gs origin ⟨i, u⟩).append_right _).trans ?_
      exact (List.perm_middle).symm

/-- Every queued item records its own slot: index in range, URL at that
index, and a parseable URL. -/
theorem okItems_mem (parseOrigin : String → Option String) :
    ∀ (us : List String) (i : Nat) (it : Item), it ∈ okItems parseOrigin i us →
      i ≤ it.index ∧ it.index < i + us.length ∧ us[it.index - i]? = some it.rawURL ∧
        parseOrigin it.rawURL ≠ none := by
  intro us
  induction us with
  | nil => intro i it h; simp [okItems] at h
  | cons u rest ih =>
    intro i it h
    rw [okItems] at h
    cases hp : parseOrigin u with
    | none =>
      rw [hp] at h
      obtain ⟨h1, h2, h3, h4⟩ := ih (i + 1) it h
      refine ⟨by omega, by simp; omega, ?_, h4⟩
      rw [show it.index - i = (it.index - (i + 1)) + 1 by omega]
      simpa using h3
    | some origin =>
      rw [hp] at h
      rcases List.mem_cons.mp h with rfl | h
      · refine ⟨Nat.le_refl i, ?_, ?_, ?_⟩
        · show i < i + (u :: rest).length
          simp
        · show (u :: rest)[i - i]? = some u
          simp
        · show parseOrigin u ≠ none
          simp [hp]
      · obtain ⟨h1, h2, h3, h4⟩ := ih (i + 1) it h
        refine ⟨by omega, by simp; omega, ?_, h4⟩
        rw [show it.index - i = (it.index - (i + 1)) + 1 by omega]
        simpa using h3

/-- Queued slot indices are pairwise distinct. -/
theorem okItems_index_nodup (parseOrigin : String → Option String) :
    ∀ (us : List String) (i : Nat),
      ((okItems parseOrigin i us).map (Item.index)).Nodup := by
  intro us
  induction us with
  | nil => intro i; simp [okItems]
  | cons u rest ih =>
    intro i
    rw [okItems]
    cases hp : parseOrigin u with
    | none => exact ih (i + 1)
    | some origin =>
      dsimp only
      rw [List.map_cons, List.nodup_cons]
      refine ⟨?_, ih (i + 1)⟩
      intro hmem
      obtain ⟨it, hit, hidx⟩ := List.mem_map.mp hmem
      have h1 := (okItems_mem parseOrigin rest (i + 1) it hit).1
      have h2 : it.index = i := by simpa using hidx
      omega

/-- Every parse-ok slot is queued. -/
theorem okItems_complete (parseOrigin : String → Option String) :
    ∀ (us : List String) (i k : Nat) (u : String), us[k]? = some u →
      parseOrigin u ≠ none → (⟨i + k, u⟩ : Item) ∈ okItems parseOrigin i us := by
  intro us
  induction us with
  | nil => intro i k u h; simp at h
  | cons v rest ih =>
    intro i k u h hok
    rw [okItems]
    cases k with
    | zero =>
      simp only [List.getElem?_cons_zero, Option.some.injEq] at h
      subst h
      cases hp : parseOrigin v with
      | none => exact absurd hp hok
      | some origin => simp
    | succ k =>
      simp only [List.getElem?_cons_succ] at h
      have := ih (i + 1) k u h hok
      cases hp : parseOrigin v with
      | none => simpa [show i + (k + 1) = (i + 1) + k by omega] using this
      | some origin =>
        simp only [List.mem_cons]
        right
        simpa [show i + (k + 1) = (i + 1) + k by omega] using this

/-- Lemma: `insertStr` only reorders. -/
theorem insertStr_perm (s : String) (l : List String) : (insertStr s l).Perm (s :: l) := by
  induction l with
  | nil => rfl
  | cons t ts ih =>
    rw [insertStr]
    split
    · rfl
    · exact (ih.cons t).trans (List.Perm.swap s t ts)

/-- Lemma: `sortStrings` only reorders. -/
theorem sortStrings_perm (l : List String) : (sortStrings l).Perm l := by
  induction l with
  | nil => rfl
  | cons s ss ih => exact (insertStr_perm s (sortStrings ss)).trans (ih.cons s)

/-- Looking each distinct key back up and flattening returns the bag. -/
theorem flatten_lookup_keys (gs : Groups) (h : (gs.map Prod.fst).Nodup) :
    (((gs.map Prod.fst).map fun o => (groupsFind gs o).getD []).flatten = itemsBag gs) := by
  induction gs with
  | nil => rfl
  | cons kv rest ih =>
    obtain ⟨k, its⟩ := kv
    simp only [List.map_cons, List.nodup_cons] at h
    obtain ⟨hk, hrest⟩ := h
    simp only [List.map_cons, List.flatten_cons, itemsBag]
    rw [groupsFind, if_pos rfl]
    have hcongr : (rest.map Prod.fst).map (fun o => (groupsFind ((k, its) :: rest) o).getD [])
        = (rest.map Prod.fst).map (fun o => (groupsFind rest o).getD []) := by
      refine List.map_congr_left ?_
      intro o ho
      rw [groupsFind, if_neg]
      intro he
      exact hk (he ▸ ho)
    rw [hcongr, ih hrest]
    rfl

/-- Folding over a flattened list is the nested fold. -/
theorem foldl_flatten_eq {α β : Type} (f : β → α → β) :
    ∀ (L : List (List α)) (b : β),
      L.flatten.foldl f b = L.foldl (fun acc l => l.foldl f acc) b := by
  intro L
  induction L with
  | nil => intro b; rfl
  | cons hd tl ih =>
    intro b
    simp only [List.flatten_cons, List.foldl_append, List.foldl_cons, ih]

/-- The nested spawn loops are one fold over the flattened task list. -/
theorem runTasks_eq_foldl (fetch : Nat → String → Except GoError Info)
    (results : List GetHTTPImageResult) (os : List String) (gs : Groups) :
    runTasks fetch results os gs =
      ((os.map fun o => (groupsFind gs o).getD []).flatten).foldl (runItem fetch)
        (results, []) := by
  rw [runTasks, foldl_flatten_eq, List.foldl_map]

/-- Lemma: `expectedList` length. -/
theorem expectedList_length (parseOrigin : String → Option String)
    (fetch : Nat → String → Except GoError Info) :
    ∀ (us : List String) (i : Nat), (expectedList parseOrigin fetch i us).length = us.length := by
  intro us
  induction us with
  | nil => intro i; rfl
  | cons u rest ih => intro i; simp [expectedList, ih]

/-- Lemma: `expectedList` elementwise. -/
theorem expectedList_getElem? (parseOrigin : String → Option String)
    (fetch : Nat → String → Except GoError Info) :
    ∀ (us : List String) (i j : Nat),
      (expectedList parseOrigin fetch i us)[j]? =
        (us[j]?).map (expectedResult parseOrigin fetch (i + j)) := by
  intro us
  induction us with
  | nil => intro i j; rfl
  | cons u rest ih =>
    intro i j
    cases j with
    | zero => simp [expectedList]
    | succ j =>
      rw [expectedList]
      simp only [List.getElem?_cons_succ, ih (i + 1) j]
      rw [show i + 1 + j = i + (j + 1) by omega]

/-- Every expected slot carries its own URL. -/
theorem expectedResult_url (parseOrigin : String → Option String)
    (fetch : Nat → String → Except GoError Info) (i : Nat) (u : String) :
    (expectedResult parseOrigin fetch i u).url = u := by
  rw [expectedResult]
  cases parseOrigin u
  · rfl
  · cases fetch i u <;> rfl

/-- The expected slots carry the input URLs in order. -/
theorem expectedList_map_url (parseOrigin : String → Option String)
    (fetch : Nat → String → Except GoError Info) :
    ∀ (us : List String) (i : Nat),
      (expectedList parseOrigin fetch i us).map (fun r => r.url) = us := by
  intro us
  induction us with
  | nil => intro i; rfl
  | cons u rest ih =>
    intro i
    simp [expectedList, expectedResult_url, ih]

/-- The spawn fold writes each slot at most once: slot `j` of the fold is
slot `j` of the input, transformed by its own task when one exists. -/
theorem foldl_runItem_getElem (fetch : Nat → String → Except GoError Info) :
    ∀ (tasks : List Item) (r : List GetHTTPImageResult) (tr : List (Nat × String)) (j : Nat),
      (tasks.map Item.index).Nodup →
      ((tasks.foldl (runItem fetch) (r, tr)).1)[j]? =
        (match tasks.find? (fun it => it.index == j) with
         | none => r[j]?
         | some it => (r[j]?).map (applyTask fetch it)) := by
  intro tasks
  induction tasks with
  | nil => intro r tr j hnd; rfl
  | cons it0 rest ih =>
    intro r tr j hnd
    rw [List.map_cons, List.nodup_cons] at hnd
    obtain ⟨hnotin, hnd⟩ := hnd
    rw [List.foldl_cons]
    by_cases hj : it0.index = j
    · subst hj
      have hfind : (it0 :: rest).find? (fun it => it.index == it0.index) = some it0 :=
        List.find?_cons_of_pos _ (by simp)
      rw [hfind]
      have hrest : rest.find? (fun it => it.index == it0.index) = none := by
        rw [List.find?_eq_none]
        intro x hx hxe
        simp only [beq_iff_eq] at hxe
        exact hnotin (List.mem_map.mpr ⟨x, hx, hxe⟩)
      rw [ih _ _ _ hnd, hrest]
      rw [runItem]
      dsimp only
      cases hslot : r[it0.index]? with
      | none =>
        dsimp only
        simp [hslot]
      | some slot =>
        dsimp only
        by_cases herr : slot.error ≠ none
        · rw [if_pos herr]
          dsimp only
          rw [hslot]
          simp [applyTask, herr]
        · rw [if_neg herr]
          have hlen : it0.index < r.length := (List.getElem?_eq_some_iff.mp hslot).1
          cases hf : fetch it0.index it0.rawURL <;> dsimp only <;>
            simp [applyTask, herr, hf, List.getElem?_set_self, hlen]
    · have hfind : (it0 :: rest).find? (fun it => it.index == j) =
          rest.find? (fun it => it.index == j) :=
        List.find?_cons_of_neg _ (by simp [hj])
      rw [hfind, ih _ _ _ hnd]
      have hsame : (runItem fetch (r, tr) it0).1[j]? = r[j]? := by
        rw [runItem]
        dsimp only
        cases hslot : r[it0.index]? with
        | none => rfl
        | some slot =>
          dsimp only
          by_cases herr : slot.error ≠ none
          · rw [if_pos herr]
          · rw [if_neg herr]
            cases hf : fetch it0.index it0.rawURL <;> dsimp only <;>
              simp [List.getElem?_set_ne hj]
      rw [hsame]

/-- One spawn either leaves the trace alone or appends its own entry. -/
theorem runItem_trace_sub (fetch : Nat → String → Except GoError Info)
    (r : List GetHTTPImageResult) (tr : List (Nat × String)) (it : Item)
    (e : Nat × String) (he : e ∈ (runItem fetch (r, tr) it).2) :
    e ∈ tr ∨ e = (it.index, it.rawURL) := by
  rw [runItem.eq_def] at he
  dsimp only at he
  split at he
  · exact Or.inl he
  · split at he
    · exact Or.inl he
    · split at he <;>
        · dsimp only at he
          rcases List.mem_append.mp he with h1 | h1
          · exact Or.inl h1
          · exact Or.inr (by simpa using h1)

/-- Every entry of the spawn trace comes from a queued task. -/
theorem foldl_runItem_trace (fetch : Nat → String → Except GoError Info) :
    ∀ (tasks : List Item) (r : List GetHTTPImageResult) (tr : List (Nat × String))
      (e : Nat × String), e ∈ (tasks.foldl (runItem fetch) (r, tr)).2 →
      e ∈ tr ∨ ∃ it ∈ tasks, e = (it.index, it.rawURL) := by
  intro tasks
  induction tasks with
  | nil => intro r tr e h; exact Or.inl h
  | cons it0 rest ih =>
    intro r tr e h
    rw [List.foldl_cons] at h
    have hacc : runItem fetch (r, tr) it0 =
        ((runItem fetch (r, tr) it0).1, (runItem fetch (r, tr) it0).2) := rfl
    rw [hacc] at h
    rcases ih _ _ e h with hmem | ⟨it, hit, he⟩
    · rcases runItem_trace_sub fetch r tr it0 e hmem with h1 | h1
      · exact Or.inl h1
      · exact Or.inr ⟨it0, List.mem_cons_self it0 rest, h1⟩
    · exact Or.inr ⟨it, List.mem_cons_of_mem it0 hit, he⟩

/-- On a non-empty batch the orchestrator is the grouping pass followed by
the spawn fold. -/
theorem getHTTP_eq_runTasks (parseOrigin : String → Option String)
    (fetch : Nat → String → Except GoError Info) (urls : List String)
    (options : GetHTTPImageOptions) (h : urls ≠ []) :
    GetHTTPImageDataWithOptions parseOrigin fetch urls options =
      runTasks fetch (phase1Go parseOrigin urls 0 [] []).1
        (sortStrings (phase1Go parseOrigin urls 0 [] []).2.1)
        (phase1Go parseOrigin urls 0 [] []).2.2 := by
  cases urls with
  | nil => exact absurd rfl h
  | cons u0 rest0 => rfl

/-- The orchestrator computes exactly the expected per-slot outcomes. -/
theorem getHTTP_results_spec (parseOrigin : String → Option String)
    (fetch : Nat → String → Except GoError Info) (urls : List String)
    (options : GetHTTPImageOptions) :
    (GetHTTPImageDataWithOptions parseOrigin fetch urls options).1 =
      expectedList parseOrigin fetch 0 urls := by
  by_cases hnil : urls = []
  · subst hnil
    rfl
  · rw [getHTTP_eq_runTasks parseOrigin fetch urls options hnil, runTasks_eq_foldl]
    have hres := phase1Go_results parseOrigin urls 0 [] []
    have hkeys := phase1Go_keys parseOrigin urls 0 [] [] rfl
    have hnd := phase1Go_keys_nodup parseOrigin urls 0 [] [] (by simp)
    have hbag := phase1Go_bag parseOrigin urls 0 [] []
    have htperm : (((sortStrings (phase1Go parseOrigin urls 0 [] []).2.1).map
          fun o => (groupsFind (phase1Go parseOrigin urls 0 [] []).2.2 o).getD []).flatten).Perm
        (okItems parseOrigin 0 urls) := by
      have h1 : (sortStrings (phase1Go parseOrigin urls 0 [] []).2.1).Perm
          ((phase1Go parseOrigin urls 0 [] []).2.2.map Prod.fst) := by
        rw [← hkeys]
        exact sortStrings_perm _
      have h2 := ((h1.map fun o =>
        (groupsFind (phase1Go parseOrigin urls 0 [] []).2.2 o).getD []).flatten).trans
        (by rw [flatten_lookup_keys _ hnd])
      exact h2.trans (by simpa [itemsBag] using hbag)
    have htnd : ((((sortStrings (phase1Go parseOrigin urls 0 [] []).2.1).map
          fun o => (groupsFind (phase1Go parseOrigin urls 0 [] []).2.2 o).getD []).flatten).map
        Item.index).Nodup :=
      ((htperm.map Item.index).symm).nodup (okItems_index_nodup parseOrigin urls 0)
    refine List.ext_getElem? fun j => ?_
    rw [foldl_runItem_getElem fetch _ _ _ j htnd, hres,
      expectedList_getElem? parseOrigin fetch urls 0 j]
    simp only [Nat.zero_add]
    cases huj : urls[j]? with
    | none =>
      have hrj : (urls.map (initSlot parseOrigin))[j]? = none := by
        rw [List.getElem?_map, huj]
        rfl
      cases hfind : (((sortStrings (phase1Go parseOrigin urls 0 [] []).2.1).map
          fun o => (groupsFind (phase1Go parseOrigin urls 0 [] []).2.2 o).getD []).flatten).find?
          (fun it => it.index == j) <;> simp [hrj]
    | some u =>
      have hrj : (urls.map (initSlot parseOrigin))[j]? = some (initSlot parseOrigin u) := by
        rw [List.getElem?_map, huj]
        rfl
      by_cases hok : parseOrigin u = none
      · have hfind : (((sortStrings (phase1Go parseOrigin urls 0 [] []).2.1).map
            fun o => (groupsFind (phase1Go parseOrigin urls 0 [] []).2.2 o).getD []).flatten).find?
            (fun it => it.index == j) = none := by
          rw [List.find?_eq_none]
          intro it hit hbeq
          have hmem := htperm.mem_iff.mp hit
          obtain ⟨h1, h2, h3, h4⟩ := okItems_mem parseOrigin urls 0 it hmem
          have hidx : it.index = j := by simpa using hbeq
          rw [hidx] at h3
          simp only [Nat.sub_zero] at h3
          have hru : it.rawURL = u := by
            have := h3.symm.trans huj
            simpa using this
          rw [hru] at h4
          exact h4 hok
        rw [hfind, hrj]
        simp [initSlot, expectedResult, hok]
      · have hin : (⟨j, u⟩ : Item) ∈ okItems parseOrigin 0 urls := by
          have := okItems_complete parseOrigin urls 0 j u huj hok
          simpa using this
        have hintasks := htperm.mem_iff.mpr hin
        have hsome : ((((sortStrings (phase1Go parseOrigin urls 0 [] []).2.1).map
            fun o => (groupsFind (phase1Go parseOrigin urls 0 [] []).2.2 o).getD []).flatten).find?
            (fun it => it.index == j)).isSome := by
          rw [List.find?_isSome]
          exact ⟨⟨j, u⟩, hintasks, by simp⟩
        obtain ⟨it, hfind⟩ := Option.isSome_iff_exists.mp hsome
        have hit_mem := List.mem_of_find?_eq_some hfind
        have hit_idx : it.index = j := by simpa using List.find?_some hfind
        have hit_url : it.rawURL = u := by
          obtain ⟨h1, h2, h3, h4⟩ := okItems_mem parseOrigin urls 0 it (htperm.mem_iff.mp hit_mem)
          rw [hit_idx] at h3
          simp only [Nat.sub_zero] at h3
          have := h3.symm.trans huj
          simpa using this
        rw [hfind, hrj]
        obtain ⟨origin, horigin⟩ := Option.ne_none_iff_exists'.mp hok
        simp only [Option.map_some']
        rw [applyTask, expectedResult, horigin]
        rw [initSlot, horigin]
        dsimp only
        rw [if_neg (by simp), hit_idx, hit_url]

/-- Every spawn-trace entry names a parse-ok input slot and its URL. -/
theorem getHTTP_trace_spec (parseOrigin : String → Option String)
    (fetch : Nat → String → Except GoError Info) (urls : List String)
    (options : GetHTTPImageOptions) (j : Nat) (v : String)
    (h : (j, v) ∈ (GetHTTPImageDataWithOptions parseOrigin fetch urls options).2) :
    urls[j]? = some v ∧ parseOrigin v ≠ none := by
  by_cases hnil : urls = []
  · subst hnil
    simp [GetHTTPImageDataWithOptions] at h
  · rw [getHTTP_eq_runTasks parseOrigin fetch urls options hnil, runTasks_eq_foldl] at h
    rcases foldl_runItem_trace fetch _ _ _ _ h with hmem | ⟨it, hit, he⟩
    · simp at hmem
    · have hkeys := phase1Go_keys parseOrigin urls 0 [] [] rfl
      have hnd := phase1Go_keys_nodup parseOrigin urls 0 [] [] (by simp)
      have hbag := phase1Go_bag parseOrigin urls 0 [] []
      have h1 : (sortStrings (phase1Go parseOrigin urls 0 [] []).2.1).Perm
          ((phase1Go parseOrigin urls 0 [] []).2.2.map Prod.fst) := by
        rw [← hkeys]
        exact sortStrings_perm _
      have htperm := ((h1.map fun o =>
        (groupsFind (phase1Go parseOrigin urls 0 [] []).2.2 o).getD []).flatten).trans
        ((by rw [flatten_lookup_keys _ hnd] : _) : _)
      have htperm2 := htperm.trans (by simpa [itemsBag] using hbag)
      have hmem := htperm2.mem_iff.mp hit
      obtain ⟨h1', h2', h3', h4'⟩ := okItems_mem parseOrigin urls 0 it hmem
      simp only [Prod.mk.injEq] at he
      obtain ⟨hej, hev⟩ := he
      subst hej
      subst hev
      simp only [Nat.sub_zero] at h3'
      exact ⟨h3', h4'⟩

/-- C1: the result slice always has the input's length with `results[i].url
= urls[i]` for every `i` (slot order equals input order, whatever the
fetch outcomes), and an empty input yields an empty result slice with an
empty spawn trace (no network activity). -/
theorem C1_batch_contract (parseOrigin : String → Option String)
    (fetch : Nat → String → Except GoError Info) (urls : List String)
    (options : GetHTTPImageOptions) :
    ((GetHTTPImageDataWithOptions parseOrigin fetch urls options).1.map
        (fun r => r.url) = urls) ∧
    (GetHTTPImageDataWithOptions parseOrigin fetch urls options).1.length = urls.length ∧
    (urls = [] → GetHTTPImageDataWithOptions parseOrigin fetch urls options = ([], [])) := by
  refine ⟨?_, ?_, ?_⟩
  · rw [getHTTP_results_spec]
    exact expectedList_map_url parseOrigin fetch urls 0
  · rw [getHTTP_results_spec]
    exact expectedList_length parseOrigin fetch urls 0
  · rintro rfl
    rfl

/-- Witness for C1: a malformed and a well-formed URL keep their slots, and
the empty batch is empty with no spawns. -/
theorem C1_batch_contract_witness :
    (((GetHTTPImageDataWithOptions
          (fun s => if s = "::bad" then none else some "http://a")
          (fun _ _ => Except.ok ⟨.png, 3, 4⟩) ["http://a/x", "::bad"] {}).1.map
        (fun r => r.url)) = ["http://a/x", "::bad"]) ∧
    (([] : List String) = [] ∧
      GetHTTPImageDataWithOptions (fun _ => none) (fun _ _ => Except.error .cancelled)
        [] {} = ([], [])) :=
  ⟨(C1_batch_contract (fun s => if s = "::bad" then none else some "http://a")
      (fun _ _ => Except.ok ⟨.png, 3, 4⟩) ["http://a/x", "::bad"] {}).1,
    rfl, (C1_batch_contract (fun _ => none) (fun _ _ => Except.error .cancelled) [] {}).2.2 rfl⟩

/-- C7: a URL that fails to parse gets a parse-error slot, spawns no task
(it appears in no spawn-trace entry, so it consumes no concurrency slot and
makes no network call), and every well-formed URL of the same batch is
processed normally (its slot holds its own fetch outcome). -/
theorem C7_parse_error_isolation (parseOrigin : String → Option String)
    (fetch : Nat → String → Except GoError Info) (urls : List String)
    (options : GetHTTPImageOptions) (j : Nat) (u : String)
    (hu : urls[j]? = some u) (hbad : parseOrigin u = none) :
    (GetHTTPImageDataWithOptions parseOrigin fetch urls options).1[j]? =
      some ⟨u, zeroInfo, some (.parse u)⟩ ∧
    (∀ v : String, (j, v) ∈ (GetHTTPImageDataWithOptions parseOrigin fetch urls options).2 →
      False) ∧
    (∀ (k : Nat) (v : String), urls[k]? = some v → parseOrigin v ≠ none →
      (GetHTTPImageDataWithOptions parseOrigin fetch urls options).1[k]? =
        some (expectedResult parseOrigin fetch k v)) := by
  refine ⟨?_, ?_, ?_⟩
  · rw [getHTTP_results_spec, expectedList_getElem? parseOrigin fetch urls 0 j, hu]
    simp [expectedResult, hbad]
  · intro v hv
    obtain ⟨h1, h2⟩ := getHTTP_trace_spec parseOrigin fetch urls options j v hv
    have : v = u := by
      have := h1.symm.trans hu
      simpa using this
    subst this
    exact h2 hbad
  · intro k v hk hokv
    rw [getHTTP_results_spec, expectedList_getElem? parseOrigin fetch urls 0 k, hk]
    simp

/-- Witness for C7: in a two-URL batch the malformed URL gets a parse
error and no spawn, while the other URL resolves normally. -/
theorem C7_parse_error_isolation_witness :
    ((GetHTTPImageDataWithOptions (fun s => if s = "::bad" then none else some "http://a")
        (fun _ _ => Except.ok ⟨.png, 3, 4⟩) ["http://a/x", "::bad"] {}).1[1]? =
      some ⟨"::bad", zeroInfo, some (.parse "::bad")⟩) ∧
    (∀ v : String, (1, v) ∈ (GetHTTPImageDataWithOptions
        (fun s => if s = "::bad" then none else some "http://a")
        (fun _ _ => Except.ok ⟨.png, 3, 4⟩) ["http://a/x", "::bad"] {}).2 → False) ∧
    (∀ (k : Nat) (v : String), ["http://a/x", "::bad"][k]? = some v →
      (fun s => if s = "::bad" then none else some "http://a") v ≠ none →
      (GetHTTPImageDataWithOptions (fun s => if s = "::bad" then none else some "http://a")
          (fun _ _ => Except.ok ⟨.png, 3, 4⟩) ["http://a/x", "::bad"] {}).1[k]? =
        some (expectedResult (fun s => if s = "::bad" then none else some "http://a")
          (fun _ _ => Except.ok ⟨.png, 3, 4⟩) k v)) :=
  C7_parse_error_isolation (fun s => if s = "::bad" then none else some "http://a")
    (fun _ _ => Except.ok ⟨.png, 3, 4⟩) ["http://a/x", "::bad"] {} 1 "::bad"
    (by decide) (by decide)

end Fastimage
